import Mathlib

/-
  Verification development for the loxinterpreter repository: a shallow
  embedding of its tokens, recursive-descent parser, resolver and
  tree-walking interpreter, with theorems settling the specification's
  claims.  Go panics/recovers (ReturnValue, BreakException, runtime
  errors) are modelled by an explicit outcome type threaded through
  evaluation; mutable environments and instances are modelled by heaps
  addressed by numeric ids; float64 numbers are modelled by rationals.
-/

/- Mathlib marks the rational-arithmetic operations irreducible, which
blocks definitional evaluation of concrete interpreter runs; restore
the default reducibility for them (the kernel itself is unaffected). -/
set_option allowUnsafeReducibility true in
attribute [semireducible] Rat.add Rat.sub Rat.mul Rat.div Rat.neg Rat.inv
  Rat.blt Rat.normalize mkRat Rat.divInt

namespace Lox

/-- Token kinds, from token.go (TokenType constants). Only the kinds the
claims exercise are listed; the omitted ones play no role in any claim. -/
inductive TokenType where
  | leftParen | rightParen | leftBrace | rightBrace
  | comma | dot | minus | plus | semicolon | slash | star
  | bang | bangEqual | equal | equalEqual
  | greater | greaterEqual | less | lessEqual
  | identifier | strLit | number
  | kwClass | kwElse | kwFalse | kwFun | kwFor | kwIf | kwNil
  | kwPrint | kwReturn | kwSuper | kwThis | kwTrue | kwVar | kwWhile | kwBreak
  | eof
deriving DecidableEq, Repr

/-- Literal payload of a token (Go Token.Literal, an interface holding a
float64 or a string when present). -/
inductive Lit where
  | num (q : Rat)
  | str (s : String)
deriving DecidableEq, Repr

/-- A scanned token, from token.go (the Start index is unused by the
embedded components and omitted). -/
structure Token where
  tokenType : TokenType
  lexeme : String
  literal : Option Lit
  line : Nat
deriving DecidableEq, Repr

/-- Payload of a Literal AST node (Go Literal.Value, an interface
holding nil, a bool, a float64 or a string). -/
inductive LitVal where
  | nil
  | bool (b : Bool)
  | num (q : Rat)
  | str (s : String)
deriving DecidableEq, Repr

/- AST: expressions, statements and function declarations, from expr.go
and stmt.go.  `Variable`, `Assign`, `This` and `Super` nodes carry a
numeric id standing for the node's Go pointer identity, which keys the
resolver side-table (Go keys its `locals` map by `Expr` pointer). -/
mutual

inductive Expr where
  | literal (value : LitVal)
  | grouping (expression : Expr)
  | unary (operator : Token) (right : Expr)
  | binary (left : Expr) (operator : Token) (right : Expr)
  | variableE (name : Token) (id : Nat)
  | assign (name : Token) (value : Expr) (id : Nat)
  | call (callee : Expr) (paren : Token) (arguments : List Expr)
  | get (object : Expr) (name : Token)
  | setE (object : Expr) (name : Token) (value : Expr)
  | thisE (keyword : Token) (id : Nat)
  | superE (keyword : Token) (method : Token) (id : Nat)

inductive Stmt where
  | expression (e : Expr)
  | print (e : Expr)
  | varDecl (name : Token) (initial : Option Expr)
  | block (statements : List Stmt)
  | ifS (condition : Expr) (thenBranch : Stmt) (elseBranch : Option Stmt)
  | whileS (condition : Expr) (body : Stmt)
  | breakS
  | funS (decl : FunDecl)
  | returnS (keyword : Token) (value : Option Expr)
  | classS (name : Token) (superclass : Option Expr) (methods : List FunDecl)

inductive FunDecl where
  | mk (name : Token) (params : List Token) (body : List Stmt)

end

def FunDecl.name : FunDecl → Token
  | .mk n _ _ => n

def FunDecl.params : FunDecl → List Token
  | .mk _ p _ => p

def FunDecl.body : FunDecl → List Stmt
  | .mk _ _ b => b

/-- Runtime user function (interpreter.go LoxFunction): the declaration,
the id of the captured closure environment, and the initializer flag. -/
structure LoxFunction where
  declaration : FunDecl
  closure : Nat
  isInit : Bool

/-- Runtime class (interpreter.go LoxClass): name, optional superclass,
method table. -/
inductive LoxClass where
  | mk (name : String) (superclass : Option LoxClass)
       (methods : List (String × LoxFunction))

def LoxClass.name : LoxClass → String
  | .mk n _ _ => n

def LoxClass.superclass : LoxClass → Option LoxClass
  | .mk _ s _ => s

def LoxClass.methods : LoxClass → List (String × LoxFunction)
  | .mk _ _ m => m

/-- Runtime values (Go interface{} values the interpreter produces): nil,
booleans, numbers (float64, modelled as rationals), strings, user
functions, classes, and instances (a reference into the instance heap,
standing for the Go pointer). -/
inductive Value where
  | nil
  | bool (b : Bool)
  | num (q : Rat)
  | str (s : String)
  | fn (f : LoxFunction)
  | cls (c : LoxClass)
  | inst (ref : Nat)

/-- An environment frame (environment.go Environment): bindings plus an
optional parent id.  Newest binding first; lookup takes the first hit,
matching Go map overwrite semantics. -/
structure Frame where
  values : List (String × Value)
  parent : Option Nat

/-- An instance (interpreter.go LoxInstance): its class and field table. -/
structure Inst where
  cls : LoxClass
  fields : List (String × Value)

/-- Interpreter state: the environment heap (ids are list indices), the
instance heap, the current-environment id, the globals id, the resolver
side-table (node id to depth, Go `locals map[Expr]int`), and the output
sink of printed lines. -/
structure InterpState where
  envs : List Frame
  insts : List Inst
  environment : Nat
  globals : Nat
  locals : List (Nat × Nat)
  output : List String

/-- Outcome of evaluating or executing: normal result, a propagating
ReturnValue panic, a propagating BreakException panic, a runtime-error
panic, or fuel exhaustion (an artifact of the embedding, never a source
behavior). -/
inductive Out (α : Type) where
  | ok (a : α)
  | ret (v : Value)
  | brk
  | err (msg : String)
  | timeout

end Lox

namespace Lox

/-- Truthiness (interpreter.go isTruthy): nil and false are falsy,
everything else truthy. -/
def isTruthy : Value → Bool
  | .nil => false
  | .bool b => b
  | _ => true

/-- Go interface equality `a == b` (interpreter.go isEqual).  Instances
compare by pointer, modelled by heap reference; functions and classes
also compare by pointer in Go, which distinct allocations make unequal,
so they are unequal here (no claim exercises these cases). -/
def isEqual : Value → Value → Bool
  | .nil, .nil => true
  | .bool a, .bool b => a == b
  | .num a, .num b => a == b
  | .str a, .str b => a == b
  | .inst a, .inst b => a == b
  | _, _ => false

/-- Numeric rendering for stringify; Go fmt `%v` of a float64 prints
integral doubles without a fraction part. -/
def ratRepr (q : Rat) : String :=
  if q.den = 1 then toString q.num else toString q.num ++ "/" ++ toString q.den

/-- interpreter.go stringify / fmt `%v`.  Functions, classes and
instances print an implementation-defined descriptive form. -/
def stringify : Value → String
  | .nil => "nil"
  | .bool b => if b then "true" else "false"
  | .num q => ratRepr q
  | .str s => s
  | .fn _ => "<fn>"
  | .cls c => "<class " ++ c.name ++ ">"
  | .inst _ => "<instance>"

/-- environment.go NewEnclosedEnvironment: allocate a fresh frame whose
parent is `parent`; returns the new frame's id. -/
def newEnclosedEnvironment (st : InterpState) (parent : Nat) : InterpState × Nat :=
  ({st with envs := st.envs ++ [⟨[], some parent⟩]}, st.envs.length)

/-- Update the frame with the given id. -/
def setFrame (st : InterpState) (id : Nat) (fr : Frame) : InterpState :=
  {st with envs := st.envs.set id fr}

/-- environment.go Define on the frame `id`: add or overwrite a binding. -/
def defineIn (st : InterpState) (id : Nat) (name : String) (v : Value) : InterpState :=
  match st.envs[id]? with
  | some fr => setFrame st id {fr with values := (name, v) :: fr.values}
  | none => st

/-- environment.go Get: read the nearest binding along the parent chain;
absence anywhere is the runtime error.  The fuel argument bounds the
chain walk (parent links never cycle, so callers pass the heap size). -/
def envGetAux : Nat → InterpState → Nat → String → Except String Value
  | 0, _, _, name => .error ("Undefined variable '" ++ name ++ "'.")
  | fuel+1, st, id, name =>
    match st.envs[id]? with
    | none => .error ("Undefined variable '" ++ name ++ "'.")
    | some fr =>
      match fr.values.lookup name with
      | some v => .ok v
      | none =>
        match fr.parent with
        | some p => envGetAux fuel st p name
        | none => .error ("Undefined variable '" ++ name ++ "'.")

def envGet (st : InterpState) (id : Nat) (name : String) : Except String Value :=
  envGetAux (st.envs.length + 1) st id name

/-- environment.go Assign: overwrite the nearest existing binding along
the parent chain; absence anywhere is the runtime error. -/
def envAssignAux : Nat → InterpState → Nat → String → Value → Except String InterpState
  | 0, _, _, name, _ => .error ("Undefined variable '" ++ name ++ "'.")
  | fuel+1, st, id, name, v =>
    match st.envs[id]? with
    | none => .error ("Undefined variable '" ++ name ++ "'.")
    | some fr =>
      match fr.values.lookup name with
      | some _ => .ok (defineIn st id name v)
      | none =>
        match fr.parent with
        | some p => envAssignAux fuel st p name v
        | none => .error ("Undefined variable '" ++ name ++ "'.")

def envAssign (st : InterpState) (id : Nat) (name : String) (v : Value) :
    Except String InterpState :=
  envAssignAux (st.envs.length + 1) st id name v

/-- The `current = current.parent` walk of getAt/assignAt
(Chapter7 interpreter.go): follow `distance` parent links. -/
def walkUp (st : InterpState) : Nat → Nat → Option Nat
  | id, 0 => some id
  | id, d+1 =>
    match st.envs[id]? with
    | some fr =>
      match fr.parent with
      | some p => walkUp st p d
      | none => none
    | none => none

/-- Chapter7 interpreter.go getAt: walk up `distance` parents and read
that frame's table; a missing key reads as the Go map zero value, nil. -/
def getAt (st : InterpState) (id distance : Nat) (name : String) : Except String Value :=
  match walkUp st id distance with
  | some fid =>
    match st.envs[fid]? with
    | some fr => .ok ((fr.values.lookup name).getD .nil)
    | none => .error "invalid environment"
  | none => .error "invalid environment"

/-- Chapter7 interpreter.go assignAt: walk up `distance` parents and
write into that frame's table. -/
def assignAt (st : InterpState) (id distance : Nat) (name : String) (v : Value) :
    Except String InterpState :=
  match walkUp st id distance with
  | some fid => .ok (defineIn st fid name v)
  | none => .error "invalid environment"

/-- interpreter.go lookupVariable: a side-table hit reads at that
distance from the current environment, otherwise the name is looked up
along the current environment's chain (`i.environment.Get`). -/
def lookupVariable (st : InterpState) (name : Token) (id : Nat) : Out Value :=
  match st.locals.lookup id with
  | some d =>
    match getAt st st.environment d name.lexeme with
    | .ok v => .ok v
    | .error m => .err m
  | none =>
    match envGet st st.environment name.lexeme with
    | .ok v => .ok v
    | .error m => .err m

/-- interpreter.go VisitAssignExpr's write step: a side-table hit writes
at that distance, otherwise along the current environment's chain. -/
def assignStep (st : InterpState) (name : Token) (id : Nat) (v : Value) :
    Except String InterpState :=
  match st.locals.lookup id with
  | some d => assignAt st st.environment d name.lexeme v
  | none => envAssign st st.environment name.lexeme v

/-- interpreter.go findMethod / FindMethod: method table first, then the
superclass chain. -/
def findMethod (c : LoxClass) (name : String) : Option LoxFunction :=
  match c with
  | .mk _ sup ms =>
    match ms.lookup name with
    | some m => some m
    | none =>
      match sup with
      | some sc => findMethod sc name
      | none => none

/-- interpreter.go LoxFunction.Bind: a fresh environment enclosing the
closure that defines `this`, and a copy of the function closing over it. -/
def bindFn (st : InterpState) (f : LoxFunction) (ref : Nat) :
    InterpState × LoxFunction :=
  let p := newEnclosedEnvironment st f.closure
  (defineIn p.1 p.2 "this" (.inst ref),
   { declaration := f.declaration, closure := p.2, isInit := f.isInit })

/-- interpreter.go LoxClass.Arity: the init method's arity, or zero. -/
def classArity (c : LoxClass) : Nat :=
  match findMethod c "init" with
  | some f => f.declaration.params.length
  | none => 0

/-- interpreter.go VisitCallExpr's callable dispatch: arity of a callable
value, none for a non-callable. -/
def arity : Value → Option Nat
  | .fn f => some f.declaration.params.length
  | .cls c => some (classArity c)
  | _ => none

/-- Bind call arguments to parameter names in the frame `envId`
(LoxFunction.Call's parameter loop). -/
def defineParams (st : InterpState) (envId : Nat) :
    List Token → List Value → InterpState
  | [], _ => st
  | _, [] => st
  | p :: ps, a :: as => defineParams (defineIn st envId p.lexeme a) envId ps as

/-- The runtime value of a Literal node's payload. -/
def litToValue : LitVal → Value
  | .nil => .nil
  | .bool b => .bool b
  | .num q => .num q
  | .str s => .str s

/-- parser.go primary for number/string tokens: the Literal node holds
the token's literal payload (a nil interface when absent). -/
def tokenLit : Option Lit → LitVal
  | none => .nil
  | some (.num q) => .num q
  | some (.str s) => .str s

end Lox

namespace Lox

/- The interpreter proper (interpreter.go).  Each function consumes one
unit of fuel per recursive call; `Out.timeout` marks fuel exhaustion. -/

/-- interpreter.go VisitBinaryExpr's operator switch, applied to the two
already-evaluated operands. -/
def visitBinary (op : Token) (left right : Value) : Out Value :=
  match op.tokenType with
  | .plus =>
    match left, right with
    | .str a, .str b => .ok (.str (a ++ b))
    | .num a, .num b => .ok (.num (a + b))
    | _, _ => .err "Operands must be two numbers or two strings."
  | .minus =>
    match left, right with
    | .num a, .num b => .ok (.num (a - b))
    | _, _ => .err ("Operands for " ++ op.lexeme ++ " must be numbers.")
  | .star =>
    match left, right with
    | .num a, .num b => .ok (.num (a * b))
    | _, _ => .err ("Operands for " ++ op.lexeme ++ " must be numbers.")
  | .slash =>
    match left, right with
    | .num a, .num b =>
      if b = 0 then .err "Division by zero." else .ok (.num (a / b))
    | _, _ => .err ("Operands for " ++ op.lexeme ++ " must be numbers.")
  | .greater =>
    match left, right with
    | .num a, .num b => .ok (.bool (decide (b < a)))
    | _, _ => .err ("Operands for " ++ op.lexeme ++ " must be numbers.")
  | .greaterEqual =>
    match left, right with
    | .num a, .num b => .ok (.bool (decide (b ≤ a)))
    | _, _ => .err ("Operands for " ++ op.lexeme ++ " must be numbers.")
  | .less =>
    match left, right with
    | .num a, .num b => .ok (.bool (decide (a < b)))
    | _, _ => .err ("Operands for " ++ op.lexeme ++ " must be numbers.")
  | .lessEqual =>
    match left, right with
    | .num a, .num b => .ok (.bool (decide (a ≤ b)))
    | _, _ => .err ("Operands for " ++ op.lexeme ++ " must be numbers.")
  | .equalEqual => .ok (.bool (isEqual left right))
  | .bangEqual => .ok (.bool (! isEqual left right))
  | _ => .ok .nil

/-- interpreter.go VisitClassStmt after superclass evaluation: define the
name to nil, push a `super` environment when superclassed, build the
method table (marking `init` as initializer), pop, and assign the class. -/
def classDeclTail (st : InterpState) (name : Token) (sc : Option LoxClass)
    (methods : List FunDecl) : InterpState × Out Unit :=
  let stA := defineIn st st.environment name.lexeme .nil
  let stB :=
    match sc with
    | some c =>
      let p := newEnclosedEnvironment stA stA.environment
      defineIn {p.1 with environment := p.2} p.2 "super" (.cls c)
    | none => stA
  let table := methods.map
    (fun m => (m.name.lexeme,
      LoxFunction.mk m stB.environment (m.name.lexeme == "init")))
  let klass := LoxClass.mk name.lexeme sc table
  let stC :=
    match sc with
    | some _ =>
      {stB with environment :=
        ((stB.envs[stB.environment]?).bind Frame.parent).getD 0}
    | none => stB
  match envAssign stC stC.environment name.lexeme (.cls klass) with
  | .ok st4 => (st4, .ok ())
  | .error m => (stC, .err m)

/-- interpreter.go LoxInstance.Get: field first, then a bound method,
else the undefined-property runtime error. -/
def instanceGet (st : InterpState) (ref : Nat) (name : Token) :
    InterpState × Out Value :=
  match st.insts[ref]? with
  | none => (st, .err "invalid instance")
  | some inst =>
    match inst.fields.lookup name.lexeme with
    | some v => (st, .ok v)
    | none =>
      match findMethod inst.cls name.lexeme with
      | some m =>
        let p := bindFn st m ref
        (p.1, .ok (.fn p.2))
      | none => (st, .err ("Undefined property '" ++ name.lexeme ++ "'."))

/-- interpreter.go LoxInstance.Set: add or overwrite a field. -/
def setField (st : InterpState) (ref : Nat) (name : String) (v : Value) :
    InterpState :=
  match st.insts[ref]? with
  | some inst =>
    {st with insts := st.insts.set ref {inst with fields := (name, v) :: inst.fields}}
  | none => st

mutual

/-- interpreter.go evaluate / the expression visitors. -/
def evaluate : Nat → InterpState → Expr → InterpState × Out Value
  | 0, st, _ => (st, .timeout)
  | n+1, st, e =>
    match e with
    | .literal v => (st, .ok (litToValue v))
    | .grouping inner => evaluate n st inner
    | .unary op right =>
      match evaluate n st right with
      | (st1, .ok v) =>
        match op.tokenType with
        | .minus =>
          match v with
          | .num q => (st1, .ok (.num (-q)))
          | _ => (st1, .err "Operand must be a number.")
        | .bang => (st1, .ok (.bool (! isTruthy v)))
        | _ => (st1, .ok .nil)
      | other => other
    | .binary l op r =>
      match evaluate n st l with
      | (st1, .ok lv) =>
        match evaluate n st1 r with
        | (st2, .ok rv) => (st2, visitBinary op lv rv)
        | other => other
      | other => other
    | .variableE name id => (st, lookupVariable st name id)
    | .assign name v id =>
      match evaluate n st v with
      | (st1, .ok value) =>
        match assignStep st1 name id value with
        | .ok st2 => (st2, .ok value)
        | .error m => (st1, .err m)
      | other => other
    | .call callee _ args =>
      match evaluate n st callee with
      | (st1, .ok cv) =>
        match evalArgs n st1 args with
        | (st2, .ok argv) =>
          match arity cv with
          | none => (st2, .err "Can only call functions and classes.")
          | some ar =>
            if argv.length ≠ ar then
              (st2, .err ("Expected " ++ toString ar ++ " arguments but got "
                           ++ toString argv.length ++ "."))
            else
              match callValue n st2 cv argv with
              | (st3, .ok v) => (st3, .ok v)
              | (st3, .ret v) => (st3, .ok v)
              | (st3, .brk) => (st3, .brk)
              | (st3, .err m) => (st3, .err m)
              | (st3, .timeout) => (st3, .timeout)
        | (st2, .ret v) => (st2, .ret v)
        | (st2, .brk) => (st2, .brk)
        | (st2, .err m) => (st2, .err m)
        | (st2, .timeout) => (st2, .timeout)
      | other => other
    | .get obj name =>
      match evaluate n st obj with
      | (st1, .ok v) =>
        match v with
        | .inst ref => instanceGet st1 ref name
        | _ => (st1, .err "Only instances have properties.")
      | other => other
    | .setE obj name v =>
      match evaluate n st obj with
      | (st1, .ok ov) =>
        match ov with
        | .inst ref =>
          match evaluate n st1 v with
          | (st2, .ok value) => (setField st2 ref name.lexeme value, .ok value)
          | other => other
        | _ => (st1, .err "Only instances have fields.")
      | other => other
    | .thisE kw id => (st, lookupVariable st kw id)
    | .superE _ method id =>
      let distance := (st.locals.lookup id).getD 0
      match getAt st st.environment distance "super" with
      | .ok (.cls sc) =>
        match getAt st st.environment (distance - 1) "this" with
        | .ok (.inst ref) =>
          match findMethod sc method.lexeme with
          | some m =>
            let p := bindFn st m ref
            (p.1, .ok (.fn p.2))
          | none => (st, .err ("Undefined property '" ++ method.lexeme ++ "'."))
        | _ => (st, .err "invalid 'this' binding")
      | _ => (st, .err "invalid 'super' binding")

/-- VisitCallExpr's argument loop: evaluate arguments left to right. -/
def evalArgs : Nat → InterpState → List Expr → InterpState × Out (List Value)
  | 0, st, _ => (st, .timeout)
  | _+1, st, [] => (st, .ok [])
  | n+1, st, a :: rest =>
    match evaluate n st a with
    | (st1, .ok v) =>
      match evalArgs n st1 rest with
      | (st2, .ok vs) => (st2, .ok (v :: vs))
      | other => other
    | (st1, .ret v) => (st1, .ret v)
    | (st1, .brk) => (st1, .brk)
    | (st1, .err m) => (st1, .err m)
    | (st1, .timeout) => (st1, .timeout)

/-- VisitCallExpr's `function.Call` dispatch on the callable. -/
def callValue : Nat → InterpState → Value → List Value → InterpState × Out Value
  | 0, st, _, _ => (st, .timeout)
  | n+1, st, .fn f, argv => functionCall n st f argv
  | n+1, st, .cls c, argv => classCall n st c argv
  | _+1, st, _, _ => (st, .err "Can only call functions and classes.")

/-- interpreter.go LoxFunction.Call: bind arguments in a fresh
environment enclosing the closure, execute the body; a ReturnValue panic
propagates (the deferred recover re-panics it), and falling off the end
returns nil.  The initializer flag is never consulted. -/
def functionCall : Nat → InterpState → LoxFunction → List Value → InterpState × Out Value
  | 0, st, _, _ => (st, .timeout)
  | n+1, st, f, argv =>
    let p := newEnclosedEnvironment st f.closure
    let st2 := defineParams p.1 p.2 f.declaration.params argv
    match executeBlock n st2 f.declaration.body p.2 with
    | (st3, .ok _) => (st3, .ok .nil)
    | (st3, .ret v) => (st3, .ret v)
    | (st3, .brk) => (st3, .brk)
    | (st3, .err m) => (st3, .err m)
    | (st3, .timeout) => (st3, .timeout)

/-- interpreter.go LoxClass.Call: construct an instance, bind and call
`init` when present (discarding its normal result), return the
instance.  It has no recover, so a ReturnValue panic raised by the
initializer body propagates past it. -/
def classCall : Nat → InterpState → LoxClass → List Value → InterpState × Out Value
  | 0, st, _, _ => (st, .timeout)
  | n+1, st, c, argv =>
    let ref := st.insts.length
    let st1 := {st with insts := st.insts ++ [⟨c, []⟩]}
    match findMethod c "init" with
    | some initFn =>
      let p := bindFn st1 initFn ref
      match callValue n p.1 (.fn p.2) argv with
      | (st2, .ok _) => (st2, .ok (.inst ref))
      | (st2, .ret v) => (st2, .ret v)
      | (st2, .brk) => (st2, .brk)
      | (st2, .err m) => (st2, .err m)
      | (st2, .timeout) => (st2, .timeout)
    | none => (st1, .ok (.inst ref))

/-- interpreter.go executeBlock: run the statements in `envId`, restoring
the previous current-environment pointer on every exit (the deferred
restore runs on normal completion and on any panic alike; on fuel
exhaustion the embedding also leaves the pointer restored). -/
def executeBlock : Nat → InterpState → List Stmt → Nat → InterpState × Out Unit
  | 0, st, _, _ => (st, .timeout)
  | n+1, st, stmts, envId =>
    let previous := st.environment
    let r := execStmts n {st with environment := envId} stmts
    ({r.1 with environment := previous}, r.2)

/-- Sequential statement execution; the first abrupt completion stops
the sequence. -/
def execStmts : Nat → InterpState → List Stmt → InterpState × Out Unit
  | 0, st, _ => (st, .timeout)
  | _+1, st, [] => (st, .ok ())
  | n+1, st, s :: rest =>
    match execute n st s with
    | (st1, .ok _) => execStmts n st1 rest
    | other => other

/-- interpreter.go execute / the statement visitors. -/
def execute : Nat → InterpState → Stmt → InterpState × Out Unit
  | 0, st, _ => (st, .timeout)
  | n+1, st, s =>
    match s with
    | .expression e =>
      match evaluate n st e with
      | (st1, .ok _) => (st1, .ok ())
      | (st1, .ret v) => (st1, .ret v)
      | (st1, .brk) => (st1, .brk)
      | (st1, .err m) => (st1, .err m)
      | (st1, .timeout) => (st1, .timeout)
    | .print e =>
      match evaluate n st e with
      | (st1, .ok v) => ({st1 with output := st1.output ++ [stringify v]}, .ok ())
      | (st1, .ret v) => (st1, .ret v)
      | (st1, .brk) => (st1, .brk)
      | (st1, .err m) => (st1, .err m)
      | (st1, .timeout) => (st1, .timeout)
    | .varDecl name initial =>
      match
        (match initial with
         | some e => evaluate n st e
         | none => (st, .ok .nil)) with
      | (st1, .ok v) => (defineIn st1 st1.environment name.lexeme v, .ok ())
      | (st1, .ret v) => (st1, .ret v)
      | (st1, .brk) => (st1, .brk)
      | (st1, .err m) => (st1, .err m)
      | (st1, .timeout) => (st1, .timeout)
    | .block stmts =>
      let p := newEnclosedEnvironment st st.environment
      executeBlock n p.1 stmts p.2
    | .ifS cond t e =>
      match evaluate n st cond with
      | (st1, .ok v) =>
        if isTruthy v then execute n st1 t
        else
          match e with
          | some s => execute n st1 s
          | none => (st1, .ok ())
      | (st1, .ret v) => (st1, .ret v)
      | (st1, .brk) => (st1, .brk)
      | (st1, .err m) => (st1, .err m)
      | (st1, .timeout) => (st1, .timeout)
    | .whileS cond body => whileExec n st cond body false
    | .breakS => (st, .brk)
    | .funS decl =>
      (defineIn st st.environment decl.name.lexeme
        (.fn ⟨decl, st.environment, false⟩), .ok ())
    | .returnS _ value =>
      match value with
      | some e =>
        match evaluate n st e with
        | (st1, .ok v) => (st1, .ret v)
        | (st1, .ret v) => (st1, .ret v)
        | (st1, .brk) => (st1, .brk)
        | (st1, .err m) => (st1, .err m)
        | (st1, .timeout) => (st1, .timeout)
      | none => (st, .ret .nil)
    | .classS name sup methods =>
      match
        ((match sup with
          | some se =>
            match evaluate n st se with
            | (st1, .ok (.cls sc)) => (st1, .ok (some sc))
            | (st1, .ok _) => (st1, .err "Superclass must be a class.")
            | (st1, .ret v) => (st1, .ret v)
            | (st1, .brk) => (st1, .brk)
            | (st1, .err m) => (st1, .err m)
            | (st1, .timeout) => (st1, .timeout)
          | none => (st, .ok none)) : InterpState × Out (Option LoxClass)) with
      | (stA, .ok sc) => classDeclTail stA name sc methods
      | (stA, .ret v) => (stA, .ret v)
      | (stA, .brk) => (stA, .brk)
      | (stA, .err m) => (stA, .err m)
      | (stA, .timeout) => (stA, .timeout)

/-- interpreter.go VisitWhileStmt.  The per-iteration deferred recover
catches a BreakException raised while the loop frame is live: a break
out of the body ends the loop cleanly; a break raised by the condition
is caught only once an earlier iteration has registered a defer
(`registered`). -/
def whileExec : Nat → InterpState → Expr → Stmt → Bool → InterpState × Out Unit
  | 0, st, _, _, _ => (st, .timeout)
  | n+1, st, cond, body, registered =>
    match evaluate n st cond with
    | (st1, .ok v) =>
      if isTruthy v then
        match execute n st1 body with
        | (st2, .ok _) => whileExec n st2 cond body true
        | (st2, .brk) => (st2, .ok ())
        | (st2, .ret rv) => (st2, .ret rv)
        | (st2, .err m) => (st2, .err m)
        | (st2, .timeout) => (st2, .timeout)
      else (st1, .ok ())
    | (st1, .brk) => if registered then (st1, .ok ()) else (st1, .brk)
    | (st1, .ret v) => (st1, .ret v)
    | (st1, .err m) => (st1, .err m)
    | (st1, .timeout) => (st1, .timeout)

end

/-- interpreter.go InterpretStatements: run the program; the deferred
recover prints a ReturnValue's payload, and re-panics anything else, so
a BreakException or a runtime error propagates out. -/
def interpretStatements (n : Nat) (st : InterpState) (stmts : List Stmt) :
    InterpState × Out Unit :=
  match execStmts n st stmts with
  | (st1, .ret v) => ({st1 with output := st1.output ++ [stringify v]}, .ok ())
  | other => other

/-- interpreter.go NewInterpreter: globals is frame 0, also current. -/
def newInterpreter : InterpState :=
  { envs := [⟨[], none⟩], insts := [], environment := 0, globals := 0,
    locals := [], output := [] }

end Lox

namespace Lox

/- The resolver, from Snapshots Archive/Chapter12&13(ClassesAndInheritance)/
resolver.go.  Go panics on static errors, which abort the whole walk:
modelled by Except.  The side-table it emits (interpreter.resolve) is the
`table` field. -/

/-- resolver.go FunctionType. -/
inductive FunctionType where
  | FunctionNone | FunctionFunction | FunctionMethod | FunctionInitializer
deriving DecidableEq, Repr

/-- resolver.go ClassType. -/
inductive ClassType where
  | ClassNone | ClassClass | ClassSubclass
deriving DecidableEq, Repr

/-- Resolver state: the scope stack (innermost scope last, as the Go
slice), the function/class kind trackers, and the emitted side-table. -/
structure RState where
  scopes : List (List (String × Bool))
  currentFunction : FunctionType
  currentClass : ClassType
  table : List (Nat × Nat)

/-- resolver.go NewResolver's starting state. -/
def newResolver : RState :=
  { scopes := [], currentFunction := .FunctionNone, currentClass := .ClassNone,
    table := [] }

def beginScope (st : RState) : RState :=
  {st with scopes := st.scopes ++ [[]]}

def endScope (st : RState) : RState :=
  {st with scopes := st.scopes.dropLast}

/-- Replace the innermost scope. -/
def setInnermost (st : RState) (sc : List (String × Bool)) : RState :=
  {st with scopes := st.scopes.dropLast ++ [sc]}

/-- resolver.go declare: no-op at global scope; re-declaration in the
same scope is a static error; otherwise mark the name declared (false). -/
def declare (st : RState) (name : Token) : Except String RState :=
  match st.scopes.getLast? with
  | none => .ok st
  | some scope =>
    if (scope.lookup name.lexeme).isSome then
      .error ("Variable with name '" ++ name.lexeme ++ "' already declared in this scope.")
    else
      .ok (setInnermost st ((name.lexeme, false) :: scope))

/-- resolver.go define: mark the name defined (true) in the innermost
scope; no-op at global scope. -/
def defineName (st : RState) (name : Token) : RState :=
  match st.scopes.getLast? with
  | none => st
  | some scope => setInnermost st ((name.lexeme, true) :: scope)

/-- resolver.go resolveLocal: search the scope stack innermost-outward;
the first scope containing the name yields the recorded distance; a miss
records nothing (global). -/
def resolveLocal (st : RState) (id : Nat) (name : Token) : RState :=
  match st.scopes.reverse.findIdx? (fun sc => (sc.lookup name.lexeme).isSome) with
  | some d => {st with table := (id, d) :: st.table}
  | none => st

/-- resolveFunction's parameter loop: declare and define each parameter
in the freshly pushed scope. -/
def rParams : RState → List Token → Except String RState
  | st, [] => pure st
  | st, p :: rest => do
    let st ← declare st p
    rParams (defineName st p) rest

mutual

/-- resolver.go statement visitors. -/
def rStmt : Nat → RState → Stmt → Except String RState
  | 0, _, _ => .error "resolver out of fuel"
  | n+1, st, s =>
    match s with
    | .expression e => rExpr n st e
    | .print e => rExpr n st e
    | .varDecl name initial => do
      let st ← declare st name
      let st ←
        match initial with
        | some e => rExpr n st e
        | none => pure st
      pure (defineName st name)
    | .block stmts => do
      let st ← rStmts n (beginScope st) stmts
      pure (endScope st)
    | .ifS cond t e => do
      let st ← rExpr n st cond
      let st ← rStmt n st t
      match e with
      | some s => rStmt n st s
      | none => pure st
    | .whileS cond body => do
      let st ← rExpr n st cond
      rStmt n st body
    | .breakS => pure st
    | .funS decl => do
      let st ← declare st decl.name
      let st := defineName st decl.name
      rFunction n st decl .FunctionFunction
    | .returnS _ value =>
      if st.currentFunction = .FunctionNone then
        .error "Cannot return from top-level code."
      else
        match value with
        | some e => rExpr n st e
        | none => pure st
    | .classS name sup methods => do
      let enclosingClass := st.currentClass
      let st := {st with currentClass := .ClassClass}
      let st ← declare st name
      let st := defineName st name
      let st ←
        match sup with
        | some se => do
          let st := {st with currentClass := .ClassSubclass}
          let st ← rExpr n st se
          pure (setInnermost (beginScope st) [("super", true)])
        | none => pure st
      let st := setInnermost (beginScope st) [("this", true)]
      let st ← rMethods n st methods
      let st := endScope st
      let st :=
        match sup with
        | some _ => endScope st
        | none => st
      pure {st with currentClass := enclosingClass}

/-- resolver.go VisitClassStmt's method loop: each method resolves as a
Method, except `init`, which resolves as an Initializer. -/
def rMethods : Nat → RState → List FunDecl → Except String RState
  | 0, _, _ => .error "resolver out of fuel"
  | _+1, st, [] => pure st
  | n+1, st, m :: rest => do
    let declKind :=
      if m.name.lexeme == "init" then FunctionType.FunctionInitializer
      else FunctionType.FunctionMethod
    let st ← rFunction n st m declKind
    rMethods n st rest

/-- resolver.go resolveFunction: push the function kind, resolve params
and body in a fresh scope, pop. -/
def rFunction : Nat → RState → FunDecl → FunctionType → Except String RState
  | 0, _, _, _ => .error "resolver out of fuel"
  | n+1, st, decl, ftype => do
    let enclosingFunction := st.currentFunction
    let st := beginScope {st with currentFunction := ftype}
    let st ← rParams st decl.params
    let st ← rStmts n st decl.body
    let st := endScope st
    pure {st with currentFunction := enclosingFunction}

def rStmts : Nat → RState → List Stmt → Except String RState
  | 0, _, _ => .error "resolver out of fuel"
  | _+1, st, [] => pure st
  | n+1, st, s :: rest => do
    let st ← rStmt n st s
    rStmts n st rest

/-- resolver.go expression visitors. -/
def rExpr : Nat → RState → Expr → Except String RState
  | 0, _, _ => .error "resolver out of fuel"
  | n+1, st, e =>
    match e with
    | .literal _ => pure st
    | .grouping inner => rExpr n st inner
    | .unary _ right => rExpr n st right
    | .binary l _ r => do
      let st ← rExpr n st l
      rExpr n st r
    | .variableE name id => do
      let st ←
        match st.scopes.getLast? with
        | some scope =>
          match scope.lookup name.lexeme with
          | some false =>
            .error ("Cannot read local variable '" ++ name.lexeme ++ "' in its own initializer.")
          | _ => pure st
        | none => pure st
      pure (resolveLocal st id name)
    | .assign name v id => do
      let st ← rExpr n st v
      pure (resolveLocal st id name)
    | .call callee _ args => do
      let st ← rExpr n st callee
      rExprs n st args
    | .get obj _ => rExpr n st obj
    | .setE obj _ v => do
      let st ← rExpr n st v
      rExpr n st obj
    | .thisE kw id =>
      if st.currentClass = .ClassNone then
        .error "Cannot use 'this' outside of a class."
      else
        pure (resolveLocal st id kw)
    | .superE kw _ id =>
      if st.currentClass = .ClassNone then
        .error "Cannot use 'super' outside of a class."
      else if st.currentClass ≠ .ClassSubclass then
        .error "Cannot use 'super' in a class with no superclass."
      else
        pure (resolveLocal st id kw)

def rExprs : Nat → RState → List Expr → Except String RState
  | 0, _, _ => .error "resolver out of fuel"
  | _+1, st, [] => pure st
  | n+1, st, e :: rest => do
    let st ← rExpr n st e
    rExprs n st rest

end

/-- resolver.go Resolve on a whole program from a fresh resolver. -/
def resolveProgram (n : Nat) (stmts : List Stmt) : Except String RState :=
  rStmts n newResolver stmts

end Lox

namespace Lox

/- The recursive-descent parser, from parser.go.  A ParseError panic is
modelled by the err outcome; p.error writes the formatted message to the
stdErr sink whether or not the caller panics with it.  `nextId` models
Go pointer freshness of allocated AST nodes (each Variable/Assign node
is a distinct allocation, hence a distinct side-table key). -/

/-- Parser outcome: success, a ParseError panic, or fuel exhaustion. -/
inductive POut (α : Type) where
  | ok (a : α)
  | err (msg : String)
  | timeout

/-- Parser state: the token slice, the cursor, the stdErr sink, and the
fresh-node counter. -/
structure PState where
  tokens : List Token
  current : Nat
  errs : List String
  nextId : Nat

def eofToken : Token := ⟨.eof, "", none, 0⟩

/-- parser.go peek. -/
def peek (st : PState) : Token := st.tokens.getD st.current eofToken

/-- parser.go previous. -/
def previous (st : PState) : Token := st.tokens.getD (st.current - 1) eofToken

/-- parser.go isAtEnd. -/
def isAtEnd (st : PState) : Bool := (peek st).tokenType == .eof

/-- parser.go check. -/
def checkTok (st : PState) (t : TokenType) : Bool :=
  if isAtEnd st then false else (peek st).tokenType == t

/-- parser.go advance. -/
def advance (st : PState) : PState × Token :=
  let st1 := if isAtEnd st then st else {st with current := st.current + 1}
  (st1, previous st1)

/-- parser.go match: try each kind in turn, consuming on the first hit. -/
def matchTok (st : PState) : List TokenType → PState × Bool
  | [] => (st, false)
  | t :: rest =>
    if checkTok st t then ((advance st).1, true) else matchTok st rest

/-- parser.go error: format, write to the stdErr sink, and hand back the
ParseError message. -/
def reportError (st : PState) (tok : Token) (msg : String) : PState × String :=
  let m := "[line " ++ toString tok.line ++ "] Error at '" ++ tok.lexeme ++ "': " ++ msg
  ({st with errs := st.errs ++ [m]}, m)

/-- parser.go consume: advance on the expected kind, else panic a
ParseError. -/
def consume (st : PState) (t : TokenType) (msg : String) : PState × POut Token :=
  if checkTok st t then
    let p := advance st
    (p.1, .ok p.2)
  else
    let p := reportError st (peek st) msg
    (p.1, .err p.2)

/-- A freshly allocated AST node's identity. -/
def freshId (st : PState) : PState × Nat :=
  ({st with nextId := st.nextId + 1}, st.nextId)

mutual

/-- parser.go expression. -/
def expressionP : Nat → PState → PState × POut Expr
  | 0, st => (st, .timeout)
  | n+1, st => assignment n st

/-- parser.go assignment: right-associative; the left side must be a
Variable (this parser has no Get nodes to rewrite into Sets). -/
def assignment : Nat → PState → PState × POut Expr
  | 0, st => (st, .timeout)
  | n+1, st =>
    match equality n st with
    | (st1, .ok expr) =>
      match matchTok st1 [.equal] with
      | (st2, true) =>
        let equals := previous st2
        match assignment n st2 with
        | (st3, .ok value) =>
          match expr with
          | .variableE nameTok _ =>
            let p := freshId st3
            (p.1, .ok (.assign nameTok value p.2))
          | _ =>
            let p := reportError st3 equals "Invalid assignment target."
            (p.1, .err p.2)
        | other => other
      | (st2, false) => (st2, .ok expr)
    | other => other

/-- parser.go equality. -/
def equality : Nat → PState → PState × POut Expr
  | 0, st => (st, .timeout)
  | n+1, st =>
    match comparison n st with
    | (st1, .ok expr) => eqLoop n st1 expr
    | other => other

def eqLoop : Nat → PState → Expr → PState × POut Expr
  | 0, st, _ => (st, .timeout)
  | n+1, st, expr =>
    match matchTok st [.bangEqual, .equalEqual] with
    | (st1, true) =>
      let operator := previous st1
      match comparison n st1 with
      | (st2, .ok right) => eqLoop n st2 (.binary expr operator right)
      | other => other
    | (st1, false) => (st1, .ok expr)

/-- parser.go comparison. -/
def comparison : Nat → PState → PState × POut Expr
  | 0, st => (st, .timeout)
  | n+1, st =>
    match termP n st with
    | (st1, .ok expr) => compLoop n st1 expr
    | other => other

def compLoop : Nat → PState → Expr → PState × POut Expr
  | 0, st, _ => (st, .timeout)
  | n+1, st, expr =>
    match matchTok st [.greater, .greaterEqual, .less, .lessEqual] with
    | (st1, true) =>
      let operator := previous st1
      match termP n st1 with
      | (st2, .ok right) => compLoop n st2 (.binary expr operator right)
      | other => other
    | (st1, false) => (st1, .ok expr)

/-- parser.go term. -/
def termP : Nat → PState → PState × POut Expr
  | 0, st => (st, .timeout)
  | n+1, st =>
    match factor n st with
    | (st1, .ok expr) => termLoop n st1 expr
    | other => other

def termLoop : Nat → PState → Expr → PState × POut Expr
  | 0, st, _ => (st, .timeout)
  | n+1, st, expr =>
    match matchTok st [.minus, .plus] with
    | (st1, true) =>
      let operator := previous st1
      match factor n st1 with
      | (st2, .ok right) => termLoop n st2 (.binary expr operator right)
      | other => other
    | (st1, false) => (st1, .ok expr)

/-- parser.go factor. -/
def factor : Nat → PState → PState × POut Expr
  | 0, st => (st, .timeout)
  | n+1, st =>
    match unaryP n st with
    | (st1, .ok expr) => factorLoop n st1 expr
    | other => other

def factorLoop : Nat → PState → Expr → PState × POut Expr
  | 0, st, _ => (st, .timeout)
  | n+1, st, expr =>
    match matchTok st [.slash, .star] with
    | (st1, true) =>
      let operator := previous st1
      match unaryP n st1 with
      | (st2, .ok right) => factorLoop n st2 (.binary expr operator right)
      | other => other
    | (st1, false) => (st1, .ok expr)

/-- parser.go unary. -/
def unaryP : Nat → PState → PState × POut Expr
  | 0, st => (st, .timeout)
  | n+1, st =>
    match matchTok st [.bang, .minus] with
    | (st1, true) =>
      let operator := previous st1
      match unaryP n st1 with
      | (st2, .ok right) => (st2, .ok (.unary operator right))
      | other => other
    | (st1, false) => callP n st1

/-- parser.go call: a primary followed by a sequence of `(args)`
suffixes only; no `.name` suffix is recognized and no Get node is ever
built. -/
def callP : Nat → PState → PState × POut Expr
  | 0, st => (st, .timeout)
  | n+1, st =>
    match primaryP n st with
    | (st1, .ok expr) => callLoop n st1 expr
    | other => other

def callLoop : Nat → PState → Expr → PState × POut Expr
  | 0, st, _ => (st, .timeout)
  | n+1, st, expr =>
    match matchTok st [.leftParen] with
    | (st1, true) =>
      match finishCall n st1 expr with
      | (st2, .ok e2) => callLoop n st2 e2
      | other => other
    | (st1, false) => (st1, .ok expr)

/-- parser.go finishCall. -/
def finishCall : Nat → PState → Expr → PState × POut Expr
  | 0, st, _ => (st, .timeout)
  | n+1, st, callee =>
    match
      ((if checkTok st .rightParen then (st, .ok [])
        else argLoop n st []) : PState × POut (List Expr)) with
    | (st1, .ok args) =>
      match consume st1 .rightParen "Expect ')' after arguments." with
      | (st2, .ok paren) => (st2, .ok (.call callee paren args))
      | (st2, .err m) => (st2, .err m)
      | (st2, .timeout) => (st2, .timeout)
    | (st1, .err m) => (st1, .err m)
    | (st1, .timeout) => (st1, .timeout)

/-- finishCall's argument loop: at 255 or more already-parsed arguments
it reports the overflow to the sink (no panic) and keeps going. -/
def argLoop : Nat → PState → List Expr → PState × POut (List Expr)
  | 0, st, _ => (st, .timeout)
  | n+1, st, acc =>
    let st :=
      if 255 ≤ acc.length then
        (reportError st (peek st) "Cannot have more than 255 arguments.").1
      else st
    match expressionP n st with
    | (st1, .ok e) =>
      match matchTok st1 [.comma] with
      | (st2, true) => argLoop n st2 (acc ++ [e])
      | (st2, false) => (st2, .ok (acc ++ [e]))
    | (st1, .err m) => (st1, .err m)
    | (st1, .timeout) => (st1, .timeout)

/-- parser.go primary. -/
def primaryP : Nat → PState → PState × POut Expr
  | 0, st => (st, .timeout)
  | n+1, st =>
    match matchTok st [.identifier] with
    | (st1, true) =>
      let p := freshId st1
      (p.1, .ok (.variableE (previous st1) p.2))
    | (st1, false) =>
    match matchTok st1 [.kwFalse] with
    | (st2, true) => (st2, .ok (.literal (.bool false)))
    | (st2, false) =>
    match matchTok st2 [.kwTrue] with
    | (st3, true) => (st3, .ok (.literal (.bool true)))
    | (st3, false) =>
    match matchTok st3 [.kwNil] with
    | (st4, true) => (st4, .ok (.literal .nil))
    | (st4, false) =>
    match matchTok st4 [.number, .strLit] with
    | (st5, true) => (st5, .ok (.literal (tokenLit (previous st5).literal)))
    | (st5, false) =>
    match matchTok st5 [.leftParen] with
    | (st6, true) =>
      match expressionP n st6 with
      | (st7, .ok inner) =>
        match consume st7 .rightParen "Expect ')' after expression." with
        | (st8, .ok _) => (st8, .ok (.grouping inner))
        | (st8, .err m) => (st8, .err m)
        | (st8, .timeout) => (st8, .timeout)
      | other => other
    | (st6, false) =>
      let p := reportError st6 (peek st6) "Expect expression."
      (p.1, .err p.2)

end

end Lox

namespace Lox

mutual

/-- parser.go declaration: fun, var, or statement (no class production
exists in this parser). -/
def declaration : Nat → PState → PState × POut Stmt
  | 0, st => (st, .timeout)
  | n+1, st =>
    match matchTok st [.kwFun] with
    | (st1, true) => functionP n st1 "function"
    | (st1, false) =>
      match matchTok st1 [.kwVar] with
      | (st2, true) => varDeclaration n st2
      | (st2, false) => statementP n st2

/-- parser.go varDeclaration. -/
def varDeclaration : Nat → PState → PState × POut Stmt
  | 0, st => (st, .timeout)
  | n+1, st =>
    match consume st .identifier "Expect variable name." with
    | (st1, .ok name) =>
      match
        ((match matchTok st1 [.equal] with
          | (st2, true) =>
            match expressionP n st2 with
            | (st3, .ok e) => (st3, .ok (some e))
            | (st3, .err m) => (st3, .err m)
            | (st3, .timeout) => (st3, .timeout)
          | (st2, false) => (st2, .ok none)) : PState × POut (Option Expr)) with
      | (st4, .ok initial) =>
        match consume st4 .semicolon "Expect ';' after variable declaration." with
        | (st5, .ok _) => (st5, .ok (.varDecl name initial))
        | (st5, .err m) => (st5, .err m)
        | (st5, .timeout) => (st5, .timeout)
      | (st4, .err m) => (st4, .err m)
      | (st4, .timeout) => (st4, .timeout)
    | (st1, .err m) => (st1, .err m)
    | (st1, .timeout) => (st1, .timeout)

/-- parser.go statement. -/
def statementP : Nat → PState → PState × POut Stmt
  | 0, st => (st, .timeout)
  | n+1, st =>
    match matchTok st [.kwPrint] with
    | (st1, true) => printStatement n st1
    | (st1, false) =>
    match matchTok st1 [.kwReturn] with
    | (st2, true) => returnStatement n st2
    | (st2, false) =>
    match matchTok st2 [.leftBrace] with
    | (st3, true) =>
      match blockList n st3 with
      | (st4, .ok stmts) => (st4, .ok (.block stmts))
      | (st4, .err m) => (st4, .err m)
      | (st4, .timeout) => (st4, .timeout)
    | (st3, false) =>
    match matchTok st3 [.kwIf] with
    | (st4, true) => ifStatement n st4
    | (st4, false) =>
    match matchTok st4 [.kwWhile] with
    | (st5, true) => whileStatement n st5
    | (st5, false) =>
    match matchTok st5 [.kwFor] with
    | (st6, true) => forStatement n st6
    | (st6, false) =>
    match matchTok st6 [.kwBreak] with
    | (st7, true) => breakStatement n st7
    | (st7, false) => expressionStatement n st7

/-- parser.go printStatement. -/
def printStatement : Nat → PState → PState × POut Stmt
  | 0, st => (st, .timeout)
  | n+1, st =>
    match expressionP n st with
    | (st1, .ok value) =>
      match consume st1 .semicolon "Expect ';' after value." with
      | (st2, .ok _) => (st2, .ok (.print value))
      | (st2, .err m) => (st2, .err m)
      | (st2, .timeout) => (st2, .timeout)
    | (st1, .err m) => (st1, .err m)
    | (st1, .timeout) => (st1, .timeout)

/-- parser.go expressionStatement. -/
def expressionStatement : Nat → PState → PState × POut Stmt
  | 0, st => (st, .timeout)
  | n+1, st =>
    match expressionP n st with
    | (st1, .ok e) =>
      match consume st1 .semicolon "Expect ';' after expression." with
      | (st2, .ok _) => (st2, .ok (.expression e))
      | (st2, .err m) => (st2, .err m)
      | (st2, .timeout) => (st2, .timeout)
    | (st1, .err m) => (st1, .err m)
    | (st1, .timeout) => (st1, .timeout)

/-- parser.go block: declarations until the closing brace. -/
def blockList : Nat → PState → PState × POut (List Stmt)
  | 0, st => (st, .timeout)
  | n+1, st =>
    if !(checkTok st .rightBrace) && !(isAtEnd st) then
      match declaration n st with
      | (st1, .ok s) =>
        match blockList n st1 with
        | (st2, .ok rest) => (st2, .ok (s :: rest))
        | (st2, .err m) => (st2, .err m)
        | (st2, .timeout) => (st2, .timeout)
      | (st1, .err m) => (st1, .err m)
      | (st1, .timeout) => (st1, .timeout)
    else
      match consume st .rightBrace "Expect '\x7d' after block." with
      | (st1, .ok _) => (st1, .ok [])
      | (st1, .err m) => (st1, .err m)
      | (st1, .timeout) => (st1, .timeout)

/-- parser.go ifStatement. -/
def ifStatement : Nat → PState → PState × POut Stmt
  | 0, st => (st, .timeout)
  | n+1, st =>
    match consume st .leftParen "Expect '(' after 'if'." with
    | (st1, .ok _) =>
      match expressionP n st1 with
      | (st2, .ok condition) =>
        match consume st2 .rightParen "Expect ')' after if condition." with
        | (st3, .ok _) =>
          match statementP n st3 with
          | (st4, .ok thenBranch) =>
            match matchTok st4 [.kwElse] with
            | (st5, true) =>
              match statementP n st5 with
              | (st6, .ok elseBranch) =>
                (st6, .ok (.ifS condition thenBranch (some elseBranch)))
              | (st6, .err m) => (st6, .err m)
              | (st6, .timeout) => (st6, .timeout)
            | (st5, false) => (st5, .ok (.ifS condition thenBranch none))
          | (st4, .err m) => (st4, .err m)
          | (st4, .timeout) => (st4, .timeout)
        | (st3, .err m) => (st3, .err m)
        | (st3, .timeout) => (st3, .timeout)
      | (st2, .err m) => (st2, .err m)
      | (st2, .timeout) => (st2, .timeout)
    | (st1, .err m) => (st1, .err m)
    | (st1, .timeout) => (st1, .timeout)

/-- parser.go whileStatement. -/
def whileStatement : Nat → PState → PState × POut Stmt
  | 0, st => (st, .timeout)
  | n+1, st =>
    match consume st .leftParen "Expect '(' after 'while'." with
    | (st1, .ok _) =>
      match expressionP n st1 with
      | (st2, .ok condition) =>
        match consume st2 .rightParen "Expect ')' after condition." with
        | (st3, .ok _) =>
          match statementP n st3 with
          | (st4, .ok body) => (st4, .ok (.whileS condition body))
          | (st4, .err m) => (st4, .err m)
          | (st4, .timeout) => (st4, .timeout)
        | (st3, .err m) => (st3, .err m)
        | (st3, .timeout) => (st3, .timeout)
      | (st2, .err m) => (st2, .err m)
      | (st2, .timeout) => (st2, .timeout)
    | (st1, .err m) => (st1, .err m)
    | (st1, .timeout) => (st1, .timeout)

/-- parser.go forStatement: parse-time desugaring into a while. -/
def forStatement : Nat → PState → PState × POut Stmt
  | 0, st => (st, .timeout)
  | n+1, st =>
    match consume st .leftParen "Expect '(' after 'for'." with
    | (st1, .ok _) =>
      match
        ((match matchTok st1 [.semicolon] with
          | (stA, true) => (stA, .ok none)
          | (stA, false) =>
            match matchTok stA [.kwVar] with
            | (stB, true) =>
              match varDeclaration n stB with
              | (stC, .ok s) => (stC, .ok (some s))
              | (stC, .err m) => (stC, .err m)
              | (stC, .timeout) => (stC, .timeout)
            | (stB, false) =>
              match expressionStatement n stB with
              | (stC, .ok s) => (stC, .ok (some s))
              | (stC, .err m) => (stC, .err m)
              | (stC, .timeout) => (stC, .timeout))
          : PState × POut (Option Stmt)) with
      | (st2, .ok initializer) =>
        match
          ((if !(checkTok st2 .semicolon) then
              match expressionP n st2 with
              | (stA, .ok e) => (stA, .ok (some e))
              | (stA, .err m) => (stA, .err m)
              | (stA, .timeout) => (stA, .timeout)
            else (st2, .ok none)) : PState × POut (Option Expr)) with
        | (st3, .ok condition) =>
          match consume st3 .semicolon "Expect ';' after loop condition." with
          | (st4, .ok _) =>
            match
              ((if !(checkTok st4 .rightParen) then
                  match expressionP n st4 with
                  | (stA, .ok e) => (stA, .ok (some e))
                  | (stA, .err m) => (stA, .err m)
                  | (stA, .timeout) => (stA, .timeout)
                else (st4, .ok none)) : PState × POut (Option Expr)) with
            | (st5, .ok increment) =>
              match consume st5 .rightParen "Expect ')' after for clauses." with
              | (st6, .ok _) =>
                match statementP n st6 with
                | (st7, .ok body0) =>
                  let body1 :=
                    match increment with
                    | some inc => Stmt.block [body0, .expression inc]
                    | none => body0
                  let cond :=
                    match condition with
                    | some c => c
                    | none => Expr.literal (.bool true)
                  let body2 := Stmt.whileS cond body1
                  let body3 :=
                    match initializer with
                    | some ini => Stmt.block [ini, body2]
                    | none => body2
                  (st7, .ok body3)
                | (st7, .err m) => (st7, .err m)
                | (st7, .timeout) => (st7, .timeout)
              | (st6, .err m) => (st6, .err m)
              | (st6, .timeout) => (st6, .timeout)
            | (st5, .err m) => (st5, .err m)
            | (st5, .timeout) => (st5, .timeout)
          | (st4, .err m) => (st4, .err m)
          | (st4, .timeout) => (st4, .timeout)
        | (st3, .err m) => (st3, .err m)
        | (st3, .timeout) => (st3, .timeout)
      | (st2, .err m) => (st2, .err m)
      | (st2, .timeout) => (st2, .timeout)
    | (st1, .err m) => (st1, .err m)
    | (st1, .timeout) => (st1, .timeout)

/-- parser.go breakStatement. -/
def breakStatement : Nat → PState → PState × POut Stmt
  | 0, st => (st, .timeout)
  | _+1, st =>
    match consume st .semicolon "Expect ';' after 'break'." with
    | (st1, .ok _) => (st1, .ok .breakS)
    | (st1, .err m) => (st1, .err m)
    | (st1, .timeout) => (st1, .timeout)

/-- parser.go returnStatement. -/
def returnStatement : Nat → PState → PState × POut Stmt
  | 0, st => (st, .timeout)
  | n+1, st =>
    let keyword := previous st
    match
      ((if !(checkTok st .semicolon) then
          match expressionP n st with
          | (stA, .ok e) => (stA, .ok (some e))
          | (stA, .err m) => (stA, .err m)
          | (stA, .timeout) => (stA, .timeout)
        else (st, .ok none)) : PState × POut (Option Expr)) with
    | (st1, .ok value) =>
      match consume st1 .semicolon "Expect ';' after return value." with
      | (st2, .ok _) => (st2, .ok (.returnS keyword value))
      | (st2, .err m) => (st2, .err m)
      | (st2, .timeout) => (st2, .timeout)
    | (st1, .err m) => (st1, .err m)
    | (st1, .timeout) => (st1, .timeout)

/-- parser.go function. -/
def functionP : Nat → PState → String → PState × POut Stmt
  | 0, st, _ => (st, .timeout)
  | n+1, st, kind =>
    match consume st .identifier ("Expect " ++ kind ++ " name.") with
    | (st1, .ok name) =>
      match consume st1 .leftParen ("Expect '(' after " ++ kind ++ " name.") with
      | (st2, .ok _) =>
        match
          ((if !(checkTok st2 .rightParen) then paramLoop n st2 []
            else (st2, .ok [])) : PState × POut (List Token)) with
        | (st3, .ok params) =>
          match consume st3 .rightParen "Expect ')' after parameters." with
          | (st4, .ok _) =>
            match consume st4 .leftBrace ("Expect '\x7b' before " ++ kind ++ " body.") with
            | (st5, .ok _) =>
              match blockList n st5 with
              | (st6, .ok body) => (st6, .ok (.funS (.mk name params body)))
              | (st6, .err m) => (st6, .err m)
              | (st6, .timeout) => (st6, .timeout)
            | (st5, .err m) => (st5, .err m)
            | (st5, .timeout) => (st5, .timeout)
          | (st4, .err m) => (st4, .err m)
          | (st4, .timeout) => (st4, .timeout)
        | (st3, .err m) => (st3, .err m)
        | (st3, .timeout) => (st3, .timeout)
      | (st2, .err m) => (st2, .err m)
      | (st2, .timeout) => (st2, .timeout)
    | (st1, .err m) => (st1, .err m)
    | (st1, .timeout) => (st1, .timeout)

/-- function's parameter loop: at 255 or more already-parsed parameters
it reports the overflow to the sink (no panic) and keeps going. -/
def paramLoop : Nat → PState → List Token → PState × POut (List Token)
  | 0, st, _ => (st, .timeout)
  | n+1, st, acc =>
    let st :=
      if 255 ≤ acc.length then
        (reportError st (peek st) "Cannot have more than 255 parameters.").1
      else st
    match consume st .identifier "Expect parameter name." with
    | (st1, .ok tok) =>
      match matchTok st1 [.comma] with
      | (st2, true) => paramLoop n st2 (acc ++ [tok])
      | (st2, false) => (st2, .ok (acc ++ [tok]))
    | (st1, .err m) => (st1, .err m)
    | (st1, .timeout) => (st1, .timeout)

/-- parser.go ParseStatements: declarations until end of input; a
ParseError aborts the whole parse. -/
def parseStatements : Nat → PState → PState × POut (List Stmt)
  | 0, st => (st, .timeout)
  | n+1, st =>
    if isAtEnd st then (st, .ok [])
    else
      match declaration n st with
      | (st1, .ok s) =>
        match parseStatements n st1 with
        | (st2, .ok rest) => (st2, .ok (s :: rest))
        | (st2, .err m) => (st2, .err m)
        | (st2, .timeout) => (st2, .timeout)
      | (st1, .err m) => (st1, .err m)
      | (st1, .timeout) => (st1, .timeout)

end

/-- parser.go NewParser: cursor at the start, empty error sink. -/
def initParser (tokens : List Token) : PState :=
  { tokens := tokens, current := 0, errs := [], nextId := 0 }

end Lox

namespace Lox

set_option maxRecDepth 8000

/- Token and program builders for the claim theorems. -/

/-- A line-1 token without a literal payload. -/
def tok (ty : TokenType) (lex : String) : Token := ⟨ty, lex, none, 1⟩

/-- A line-1 identifier token. -/
def identTok (s : String) : Token := ⟨.identifier, s, none, 1⟩

/-- A line-1 number token carrying its numeric literal. -/
def numTok (q : Rat) : Token := ⟨.number, "1", some (.num q), 1⟩

/-- `class Foo { init() { return; } } var x = Foo();` as an AST: the
initializer body executes an explicit bare return. -/
def c1prog : List Stmt :=
  [Stmt.classS (identTok "Foo") none
    [FunDecl.mk (identTok "init") [] [Stmt.returnS (tok .kwReturn "return") none]],
   Stmt.varDecl (identTok "x")
     (some (.call (.variableE (identTok "Foo") 0) (tok .rightParen ")") []))]

/-- `class Foo { init() {} } var x = Foo();`: same class, but the
initializer body falls off the end. -/
def c1progNoReturn : List Stmt :=
  [Stmt.classS (identTok "Foo") none [FunDecl.mk (identTok "init") [] []],
   Stmt.varDecl (identTok "x")
     (some (.call (.variableE (identTok "Foo") 0) (tok .rightParen ")") []))]

/-- Claim C1: calling the bound initializer (via class instantiation or by
re-invoking `init`) returns the receiving instance regardless of an
explicit `return`.  The code refutes this: `LoxFunction.Call` never
consults its initializer flag, and `LoxClass.Call` has no recover, so an
explicit bare `return` in `init` makes `Foo()` itself evaluate to nil —
the global `x` ends up nil, not the instance.  Without the explicit
return the same instantiation does yield the instance (`inst 0`),
pinning the divergence to the explicit-return path the claim includes. -/
theorem c1_initializer_return_not_instance :
    (interpretStatements 100 newInterpreter c1prog).2 = Out.ok () ∧
    envGet (interpretStatements 100 newInterpreter c1prog).1 0 "x" = .ok Value.nil ∧
    envGet (interpretStatements 100 newInterpreter c1progNoReturn).1 0 "x" =
      .ok (Value.inst 0) :=
  ⟨rfl, rfl, rfl⟩

/-- `class Foo { init() { return 42; } }` as an AST. -/
def c2prog : List Stmt :=
  [Stmt.classS (identTok "Foo") none
    [FunDecl.mk (identTok "init") []
      [Stmt.returnS (tok .kwReturn "return") (some (.literal (.num 42)))]]]

/-- Claim C2: a `return` with a value inside an `init` method is a static
error and the program does not run.  The code refutes this: the resolver
resolves `init` with `currentFunction = FunctionInitializer`, but
`VisitReturnStmt` only rejects `FunctionNone`, so the resolver completes
without any error (ending in its pristine starting state) and the
program would run. -/
theorem c2_resolver_accepts_return_value_in_init :
    resolveProgram 50 c2prog = .ok newResolver :=
  rfl

/-- The token sequence of `obj.name;`. -/
def c3dotToks : List Token :=
  [identTok "obj", tok .dot ".", identTok "name", tok .semicolon ";", tok .eof ""]

/-- The token sequence of `f(1)(2);`. -/
def c3callToks : List Token :=
  [identTok "f", tok .leftParen "(", numTok 1, tok .rightParen ")",
   tok .leftParen "(", numTok 2, tok .rightParen ")", tok .semicolon ";", tok .eof ""]

/-- Claim C3: the call-level production accepts interleaved `(args)` and
`.name` suffixes, building Call and Get nodes.  The code refutes the
`.name` half: `Parser.call` only matches `(`, so `obj.name;` dies with a
ParseError at the dot and no Get node is ever built, while a chain of
`(args)` suffixes does produce nested Call nodes. -/
theorem c3_dot_suffix_is_parse_error :
    (parseStatements 50 (initParser c3dotToks)).2 =
      POut.err "[line 1] Error at '.': Expect ';' after expression." ∧
    (parseStatements 50 (initParser c3callToks)).2 =
      POut.ok [Stmt.expression
        (.call (.call (.variableE (identTok "f") 0) (tok .rightParen ")")
                 [.literal (.num 1)])
          (tok .rightParen ")") [.literal (.num 2)])] :=
  ⟨rfl, rfl⟩

/-- `{ fun g() { print x; } var x = "local"; g(); }` as an AST.  The
resolver gives the `x` inside `g` (node id 1) no side-table entry —
when `g`'s body is resolved, `x` is not yet declared in any scope —
and gives the call's `g` (node id 2) distance 0. -/
def c4prog : List Stmt :=
  [Stmt.block
    [Stmt.funS (.mk (identTok "g") [] [Stmt.print (.variableE (identTok "x") 1)]),
     Stmt.varDecl (identTok "x") (some (.literal (.str "local"))),
     Stmt.expression (.call (.variableE (identTok "g") 2) (tok .rightParen ")") [])]]

/-- Claim C4: a Variable without a side-table entry is looked up in the
globals environment, absence there being the runtime error.  The code
refutes this: `lookupVariable` falls back to `i.environment.Get`, the
current environment's whole parent chain, even though its own comment
says "check the global environment".  Running the program above (with
the side-table the resolver actually produces), the unresolved `x`
inside `g` prints the enclosing block's `"local"` and the run succeeds,
although `x` is absent from globals, where the claim requires the
"Undefined variable 'x'." error. -/
theorem c4_unresolved_variable_reads_enclosing_scope_not_globals :
    resolveProgram 100 c4prog =
      .ok ⟨[], .FunctionNone, .ClassNone, [(2, 0)]⟩ ∧
    (interpretStatements 200 {newInterpreter with locals := [(2, 0)]} c4prog).2 =
      Out.ok () ∧
    (interpretStatements 200 {newInterpreter with locals := [(2, 0)]} c4prog).1.output =
      ["local"] ∧
    envGet (interpretStatements 200 {newInterpreter with locals := [(2, 0)]} c4prog).1
      0 "x" = .error "Undefined variable 'x'." :=
  ⟨rfl, rfl, rfl, rfl⟩

/-- The token sequence of the top-level program `break;`. -/
def c10toks : List Token :=
  [tok .kwBreak "break", tok .semicolon ";", tok .eof ""]

/-- Claim C10: a `break` outside any loop is rejected by neither the
parser nor the resolver, and at runtime the BreakException escapes
`InterpretStatements` (whose recover re-panics everything but
ReturnValue), aborting the run instead of being reported as an ordinary
runtime error. -/
theorem c10_toplevel_break_propagates :
    (parseStatements 50 (initParser c10toks)).2 = POut.ok [Stmt.breakS] ∧
    resolveProgram 50 [Stmt.breakS] = .ok newResolver ∧
    (interpretStatements 50 newInterpreter [Stmt.breakS]).2 = Out.brk :=
  ⟨rfl, rfl, rfl⟩

end Lox

namespace Lox

set_option maxRecDepth 8000

/-- Claim C5: after any Block execution — whatever the exit (normal,
Return, Break, runtime error, or the embedding's fuel exhaustion) — the
interpreter's current-environment pointer equals its value just before
block entry.  Stated both for the Block statement visitor and for
`executeBlock` itself (the function also used for function-call
bodies). -/
theorem c5_block_restores_environment (n : Nat) (st : InterpState)
    (stmts : List Stmt) :
    (execute n st (Stmt.block stmts)).1.environment = st.environment ∧
    ∀ envId, (executeBlock n st stmts envId).1.environment = st.environment := by
  constructor
  · cases n with
    | zero => rfl
    | succ m =>
      cases m with
      | zero => rfl
      | succ k => rfl
  · intro envId
    cases n with
    | zero => rfl
    | succ m => rfl

/-- `var i = 0; while (i < 3) { print i; while (true) { print 99; break;
print 100; } i = i + 1; }` as an AST (all variables global, so the
side-table is empty). -/
def c6prog : List Stmt :=
  [Stmt.varDecl (identTok "i") (some (.literal (.num 0))),
   Stmt.whileS (.binary (.variableE (identTok "i") 1) (tok .less "<") (.literal (.num 3)))
     (Stmt.block
       [Stmt.print (.variableE (identTok "i") 2),
        Stmt.whileS (.literal (.bool true))
          (Stmt.block
            [Stmt.print (.literal (.num 99)), Stmt.breakS,
             Stmt.print (.literal (.num 100))]),
        Stmt.expression (.assign (identTok "i")
          (.binary (.variableE (identTok "i") 3) (tok .plus "+") (.literal (.num 1))) 4)])]

/-- Claim C6: a Break signal terminates exactly the innermost enclosing
While.  Generally: whenever a While's condition is truthy and its body
completes with the Break signal, the While itself completes normally in
the body's final state (so nothing propagates to any outer loop).
Concretely, in the nested-loop program above the inner `break` ends only
the inner loop — `100` is never printed — and the outer loop goes on to
iterate three times, resuming after the inner loop each time. -/
theorem c6_break_terminates_only_innermost_while
    (m : Nat) (st st1 st2 : InterpState) (cond : Expr) (body : Stmt) (v : Value)
    (hc : evaluate m st cond = (st1, .ok v))
    (ht : isTruthy v = true)
    (hb : execute m st1 body = (st2, .brk)) :
    execute (m+2) st (.whileS cond body) = (st2, .ok ()) ∧
    (interpretStatements 200 newInterpreter c6prog).2 = Out.ok () ∧
    (interpretStatements 200 newInterpreter c6prog).1.output =
      ["0", "99", "1", "99", "2", "99"] := by
  refine ⟨?_, rfl, rfl⟩
  show whileExec (m+1) st cond body false = (st2, .ok ())
  simp [whileExec, hc, ht, hb]

/-- Witness for C6 at a concrete input: `while (true) break;` completes
normally without the Break escaping. -/
theorem c6_break_terminates_only_innermost_while_witness :
    execute 3 newInterpreter (.whileS (.literal (.bool true)) Stmt.breakS) =
      (newInterpreter, .ok ()) :=
  (c6_break_terminates_only_innermost_while 1 newInterpreter newInterpreter
    newInterpreter (.literal (.bool true)) Stmt.breakS (.bool true)
    rfl rfl rfl).1

/-- Claim C7: a binary `/` whose operands evaluate to numbers raises
"Division by zero." exactly when the right operand is 0, and otherwise
yields the quotient. -/
theorem c7_division_by_zero_iff_zero_divisor
    (n : Nat) (st st1 st2 : InterpState) (l r : Expr) (op : Token) (a b : Rat)
    (hop : op.tokenType = .slash)
    (hl : evaluate n st l = (st1, .ok (.num a)))
    (hr : evaluate n st1 r = (st2, .ok (.num b))) :
    evaluate (n+1) st (.binary l op r) =
      (st2, if b = 0 then .err "Division by zero." else .ok (.num (a / b))) := by
  simp only [evaluate, hl, hr]
  simp [visitBinary, hop]

/-- Witness for C7 at concrete inputs: `1 / 0` is the division-by-zero
runtime error and `6 / 3` is 2. -/
theorem c7_division_by_zero_iff_zero_divisor_witness :
    evaluate 2 newInterpreter
        (.binary (.literal (.num 1)) (tok .slash "/") (.literal (.num 0))) =
      (newInterpreter, .err "Division by zero.") ∧
    evaluate 2 newInterpreter
        (.binary (.literal (.num 6)) (tok .slash "/") (.literal (.num 3))) =
      (newInterpreter, .ok (.num 2)) := by
  constructor
  · have h := c7_division_by_zero_iff_zero_divisor 1 newInterpreter newInterpreter
      newInterpreter (.literal (.num 1)) (.literal (.num 0)) (tok .slash "/")
      1 0 rfl rfl rfl
    rw [h]
    norm_num
  · have h := c7_division_by_zero_iff_zero_divisor 1 newInterpreter newInterpreter
      newInterpreter (.literal (.num 6)) (.literal (.num 3)) (tok .slash "/")
      6 3 rfl rfl rfl
    rw [h]
    norm_num

/-- `var a = 1; var b = 2; print a = b = 3; print a; print b;` as an AST
(all globals, empty side-table). -/
def c9prog : List Stmt :=
  [Stmt.varDecl (identTok "a") (some (.literal (.num 1))),
   Stmt.varDecl (identTok "b") (some (.literal (.num 2))),
   Stmt.print (.assign (identTok "a")
     (.assign (identTok "b") (.literal (.num 3)) 1) 2),
   Stmt.print (.variableE (identTok "a") 3),
   Stmt.print (.variableE (identTok "b") 4)]

/-- Claim C9: an Assign evaluates to the assigned value (so chained
assignments store and yield it), and a Set on an instance likewise
evaluates to the stored value.  Generally: a successful assignment
returns exactly the right-hand value, and a Set on an instance object
returns the stored value; concretely, `a = b = 3` makes the program
above print 3, 3, 3. -/
theorem c9_assignment_yields_assigned_value (n : Nat) :
    (∀ (st st1 st2 : InterpState) (nameTok : Token) (id : Nat) (vexp : Expr) (v : Value),
      evaluate n st vexp = (st1, .ok v) →
      assignStep st1 nameTok id v = .ok st2 →
      evaluate (n+1) st (.assign nameTok vexp id) = (st2, .ok v)) ∧
    (∀ (obj vexp : Expr) (fld : Token) (st0 sta stb : InterpState) (ref : Nat) (w : Value),
      evaluate n st0 obj = (sta, .ok (.inst ref)) →
      evaluate n sta vexp = (stb, .ok w) →
      evaluate (n+1) st0 (.setE obj fld vexp) =
        (setField stb ref fld.lexeme w, .ok w)) ∧
    (interpretStatements 100 newInterpreter c9prog).1.output = ["3", "3", "3"] := by
  refine ⟨?_, ?_, rfl⟩
  · intro st st1 st2 nameTok id vexp v hv hw
    simp only [evaluate, hv, hw]
  · intro obj vexp fld st0 sta stb ref w ho hv
    simp only [evaluate, ho, hv]

/-- A one-binding globals state for the C9 witness. -/
def c9wStA : InterpState :=
  {newInterpreter with envs := [⟨[("a", Value.num 1)], none⟩]}

/-- A state with a global `o` bound to a fresh instance, for the C9
witness. -/
def c9wStO : InterpState :=
  {newInterpreter with envs := [⟨[("o", Value.inst 0)], none⟩],
                       insts := [⟨LoxClass.mk "K" none [], []⟩]}

/-- Witness for C9 at concrete inputs: `a = 3` yields 3 (and stores it),
and `o.f = 3` on an instance yields 3 (and stores the field). -/
theorem c9_assignment_yields_assigned_value_witness :
    evaluate 2 c9wStA (.assign (identTok "a") (.literal (.num 3)) 0) =
      (defineIn c9wStA 0 "a" (Value.num 3), Out.ok (Value.num 3)) ∧
    evaluate 2 c9wStO
        (.setE (.variableE (identTok "o") 5) (identTok "f") (.literal (.num 3))) =
      (setField c9wStO 0 "f" (Value.num 3), Out.ok (Value.num 3)) :=
  ⟨(c9_assignment_yields_assigned_value 1).1 c9wStA c9wStA
     (defineIn c9wStA 0 "a" (Value.num 3)) (identTok "a") 0 (.literal (.num 3))
     (Value.num 3) rfl rfl,
   (c9_assignment_yields_assigned_value 1).2.1 (.variableE (identTok "o") 5)
     (.literal (.num 3)) (identTok "f") c9wStO c9wStO c9wStO 0 (Value.num 3) rfl rfl⟩

end Lox

namespace Lox

/- Infrastructure for claim C8: positional reasoning about the token
cursor, stated through `List.drop` facts. -/

theorem getD_of_drop {l : List Token} {c : Nat} {x : Token} {xs : List Token}
    (h : l.drop c = x :: xs) (d : Token) : l.getD c d = x := by
  induction c generalizing l with
  | zero =>
    simp only [List.drop_zero] at h
    simp [h]
  | succ c ih =>
    cases l with
    | nil => simp at h
    | cons y t =>
      simp only [List.drop_succ_cons] at h
      simpa using ih h

theorem drop_succ_of_drop {l : List Token} {c : Nat} {x : Token} {xs : List Token}
    (h : l.drop c = x :: xs) : l.drop (c + 1) = xs := by
  have h2 : List.drop 1 (List.drop c l) = List.drop (c + 1) l := List.drop_drop 1 c l
  rw [h] at h2
  simpa using h2.symm

theorem drop_append_of_drop {l A B : List Token} {c : Nat}
    (h : l.drop c = A ++ B) : l.drop (c + A.length) = B := by
  induction A generalizing c with
  | nil => simpa using h
  | cons a A ih =>
    have h1 : l.drop (c + 1) = A ++ B := drop_succ_of_drop (by simpa using h)
    have := ih h1
    simpa [Nat.add_assoc, Nat.add_comm 1 A.length] using this

theorem peek_of_drop {st : PState} {x : Token} {xs : List Token}
    (h : st.tokens.drop st.current = x :: xs) : peek st = x :=
  getD_of_drop h _

/-- The token sequence of `n` parameters named `a` separated by commas. -/
def paramSeq : Nat → List Token
  | 0 => []
  | 1 => [identTok "a"]
  | k+2 => identTok "a" :: tok .comma "," :: paramSeq (k+1)

/-- The token sequence of `n` arguments `1` separated by commas. -/
def argSeq : Nat → List Token
  | 0 => []
  | 1 => [numTok 1]
  | k+2 => numTok 1 :: tok .comma "," :: argSeq (k+1)

/-- `fun f(a, ..., a) {} print 1;` with `n` parameters, followed by EOF. -/
def funToks (n : Nat) : List Token :=
  [tok .kwFun "fun", identTok "f", tok .leftParen "("] ++ paramSeq n ++
  [tok .rightParen ")", tok .leftBrace "\x7b", tok .rightBrace "\x7d",
   tok .kwPrint "print", numTok 1, tok .semicolon ";", tok .eof ""]

/-- `f(1, ..., 1); print 1;` with `n` arguments, followed by EOF. -/
def callToks (n : Nat) : List Token :=
  [identTok "f", tok .leftParen "("] ++ argSeq n ++
  [tok .rightParen ")", tok .semicolon ";",
   tok .kwPrint "print", numTok 1, tok .semicolon ";", tok .eof ""]

/-- The sink line the parameter-limit overflow report produces. -/
def paramOverflowMsg : String :=
  "[line 1] Error at 'a': Cannot have more than 255 parameters."

/-- The sink line the argument-limit overflow report produces. -/
def argOverflowMsg : String :=
  "[line 1] Error at '1': Cannot have more than 255 arguments."

/-- The sink lines an overflow-checking loop emits over `k` iterations
starting from `a` already-collected items: one per iteration at or past
255. -/
def overflowErrs (msg : String) : Nat → Nat → List String
  | _, 0 => []
  | a, k+1 => (if 255 ≤ a then [msg] else []) ++ overflowErrs msg (a+1) k

theorem overflowErrs_length (msg : String) :
    ∀ (k a : Nat), (overflowErrs msg a k).length = a + k - max a 255 := by
  intro k
  induction k with
  | zero => intro a; simp [overflowErrs]
  | succ k ih =>
    intro a
    by_cases h : 255 ≤ a <;> simp [overflowErrs, h, ih (a+1)] <;> omega

end Lox

namespace Lox

theorem reportError_eq (st : PState) (t : Token) (msg : String) :
    reportError st t msg =
      ({st with errs := st.errs ++
          ["[line " ++ toString t.line ++ "] Error at '" ++ t.lexeme ++ "': " ++ msg]},
       "[line " ++ toString t.line ++ "] Error at '" ++ t.lexeme ++ "': " ++ msg) :=
  rfl

theorem checkTok_of_drop {st : PState} {x : Token} {xs : List Token}
    (hd : st.tokens.drop st.current = x :: xs) (t : TokenType) :
    checkTok st t = (if x.tokenType = .eof then false else (x.tokenType == t)) := by
  have hp := peek_of_drop hd
  by_cases he : x.tokenType = .eof <;>
    simp [checkTok, isAtEnd, hp, he]

theorem consume_ok {st : PState} {x : Token} {xs : List Token} {t : TokenType}
    (hd : st.tokens.drop st.current = x :: xs) (ht : x.tokenType = t)
    (hne : t ≠ TokenType.eof) (msg : String) :
    consume st t msg = ({st with current := st.current + 1}, .ok x) := by
  have hc : checkTok st t = true := by
    rw [checkTok_of_drop hd t, ht]
    simp [hne]
  have ha : isAtEnd st = false := by
    have hp := peek_of_drop hd
    simp [isAtEnd, hp, ht, hne]
  simp only [consume, hc, if_true, advance, ha, Bool.false_eq_true, if_false,
    previous, Nat.add_sub_cancel]
  rw [getD_of_drop hd]

theorem matchTok_hit {st : PState} {x : Token} {xs : List Token} {t : TokenType}
    (hd : st.tokens.drop st.current = x :: xs) (ht : x.tokenType = t)
    (hne : t ≠ TokenType.eof) (ts : List TokenType) :
    matchTok st (t :: ts) = ({st with current := st.current + 1}, true) := by
  have hc : checkTok st t = true := by
    rw [checkTok_of_drop hd t, ht]
    simp [hne]
  have ha : isAtEnd st = false := by
    have hp := peek_of_drop hd
    simp [isAtEnd, hp, ht, hne]
  simp [matchTok, hc, advance, ha]

theorem matchTok_miss {st : PState} {x : Token} {xs : List Token} {t : TokenType}
    (hd : st.tokens.drop st.current = x :: xs) (ht : x.tokenType ≠ t)
    (ts : List TokenType) :
    matchTok st (t :: ts) = matchTok st ts := by
  have hc : checkTok st t = false := by
    rw [checkTok_of_drop hd t]
    by_cases he : x.tokenType = .eof <;> simp [he, ht]
  simp [matchTok, hc]

end Lox

namespace Lox

/-- One unfolding of the parameter loop, with the overflow-reporting
`if` abstracted into the state `stE` it produces. -/
theorem paramLoop_step (g' : Nat) (st stE : PState) (acc : List Token)
    (hE : (if 255 ≤ acc.length then
            (reportError st (peek st) "Cannot have more than 255 parameters.").1
           else st) = stE) :
    paramLoop (g'+1) st acc =
      (match consume stE .identifier "Expect parameter name." with
       | (st1, .ok tokP) =>
         match matchTok st1 [.comma] with
         | (st2, true) => paramLoop g' st2 (acc ++ [tokP])
         | (st2, false) => (st2, .ok (acc ++ [tokP]))
       | (st1, .err m) => (st1, .err m)
       | (st1, .timeout) => (st1, .timeout)) := by
  rw [← hE]
  rfl

theorem paramLoop_spec :
    ∀ (j g : Nat) (st : PState) (acc : List Token) (rest : List Token),
      j + 1 ≤ g →
      st.tokens.drop st.current = paramSeq (j+1) ++ tok .rightParen ")" :: rest →
      paramLoop g st acc =
        ({st with current := st.current + (2*j + 1),
                  errs := st.errs ++ overflowErrs paramOverflowMsg acc.length (j+1)},
         .ok (acc ++ List.replicate (j+1) (identTok "a"))) := by
  intro j
  induction j with
  | zero =>
    intro g st acc rest hg hd
    obtain ⟨g', rfl⟩ : ∃ g', g = g' + 1 := ⟨g - 1, by omega⟩
    have hd1 : st.tokens.drop st.current =
        identTok "a" :: tok .rightParen ")" :: rest := by
      simpa [paramSeq] using hd
    by_cases hacc : 255 ≤ acc.length
    · set stE : PState := {st with errs := st.errs ++ [paramOverflowMsg]} with hEdef
      have hE : (if 255 ≤ acc.length then
            (reportError st (peek st) "Cannot have more than 255 parameters.").1
           else st) = stE := by
        rw [if_pos hacc, peek_of_drop hd1]
        rfl
      rw [paramLoop_step g' st stE acc hE]
      have hdE : stE.tokens.drop stE.current =
          identTok "a" :: tok .rightParen ")" :: rest := hd1
      rw [consume_ok hdE (show (identTok "a").tokenType = TokenType.identifier from rfl)
        (by decide) "Expect parameter name."]
      dsimp only
      have hdE2 : ({stE with current := stE.current + 1} : PState).tokens.drop
          ({stE with current := stE.current + 1} : PState).current =
          tok .rightParen ")" :: rest := drop_succ_of_drop hdE
      rw [matchTok_miss hdE2 (by decide) []]
      simp only [matchTok]
      simp [hEdef, overflowErrs, hacc, Prod.ext_iff, PState.mk.injEq]
    · have hE : (if 255 ≤ acc.length then
            (reportError st (peek st) "Cannot have more than 255 parameters.").1
           else st) = st := if_neg hacc
      rw [paramLoop_step g' st st acc hE]
      rw [consume_ok hd1 (show (identTok "a").tokenType = TokenType.identifier from rfl)
        (by decide) "Expect parameter name."]
      dsimp only
      have hd2 : ({st with current := st.current + 1} : PState).tokens.drop
          ({st with current := st.current + 1} : PState).current =
          tok .rightParen ")" :: rest := drop_succ_of_drop hd1
      rw [matchTok_miss hd2 (by decide) []]
      simp only [matchTok]
      simp [overflowErrs, hacc, Prod.ext_iff, PState.mk.injEq]
  | succ j ih =>
    intro g st acc rest hg hd
    obtain ⟨g', rfl⟩ : ∃ g', g = g' + 1 := ⟨g - 1, by omega⟩
    have hd1 : st.tokens.drop st.current =
        identTok "a" :: tok .comma "," ::
          (paramSeq (j+1) ++ tok .rightParen ")" :: rest) := by
      simpa [paramSeq] using hd
    by_cases hacc : 255 ≤ acc.length
    · set stE : PState := {st with errs := st.errs ++ [paramOverflowMsg]} with hEdef
      have hE : (if 255 ≤ acc.length then
            (reportError st (peek st) "Cannot have more than 255 parameters.").1
           else st) = stE := by
        rw [if_pos hacc, peek_of_drop hd1]
        rfl
      rw [paramLoop_step g' st stE acc hE]
      have hdE : stE.tokens.drop stE.current =
          identTok "a" :: tok .comma "," ::
            (paramSeq (j+1) ++ tok .rightParen ")" :: rest) := hd1
      rw [consume_ok hdE (show (identTok "a").tokenType = TokenType.identifier from rfl)
        (by decide) "Expect parameter name."]
      dsimp only
      have hdE2 : ({stE with current := stE.current + 1} : PState).tokens.drop
          ({stE with current := stE.current + 1} : PState).current =
          tok .comma "," :: (paramSeq (j+1) ++ tok .rightParen ")" :: rest) :=
        drop_succ_of_drop hdE
      rw [matchTok_hit hdE2 (show (tok .comma ",").tokenType = TokenType.comma from rfl)
        (by decide) []]
      dsimp only
      have hdE3 : ({stE with current := stE.current + 1 + 1} : PState).tokens.drop
          ({stE with current := stE.current + 1 + 1} : PState).current =
          paramSeq (j+1) ++ tok .rightParen ")" :: rest := drop_succ_of_drop hdE2
      rw [ih g' _ (acc ++ [identTok "a"]) rest (by omega) hdE3]
      simp [hEdef, overflowErrs, hacc, List.replicate_succ, List.append_assoc,
        Prod.ext_iff, PState.mk.injEq]
      omega
    · have hE : (if 255 ≤ acc.length then
            (reportError st (peek st) "Cannot have more than 255 parameters.").1
           else st) = st := if_neg hacc
      rw [paramLoop_step g' st st acc hE]
      rw [consume_ok hd1 (show (identTok "a").tokenType = TokenType.identifier from rfl)
        (by decide) "Expect parameter name."]
      dsimp only
      have hd2 : ({st with current := st.current + 1} : PState).tokens.drop
          ({st with current := st.current + 1} : PState).current =
          tok .comma "," :: (paramSeq (j+1) ++ tok .rightParen ")" :: rest) :=
        drop_succ_of_drop hd1
      rw [matchTok_hit hd2 (show (tok .comma ",").tokenType = TokenType.comma from rfl)
        (by decide) []]
      dsimp only
      have hd3 : ({st with current := st.current + 1 + 1} : PState).tokens.drop
          ({st with current := st.current + 1 + 1} : PState).current =
          paramSeq (j+1) ++ tok .rightParen ")" :: rest := drop_succ_of_drop hd2
      rw [ih g' _ (acc ++ [identTok "a"]) rest (by omega) hd3]
      simp [overflowErrs, hacc, List.replicate_succ, List.append_assoc,
        Prod.ext_iff, PState.mk.injEq]
      omega

end Lox

namespace Lox

theorem matchTok_none {st : PState} {x : Token} {xs : List Token}
    (hd : st.tokens.drop st.current = x :: xs) :
    ∀ ts : List TokenType, x.tokenType ∉ ts → matchTok st ts = (st, false) := by
  intro ts
  induction ts with
  | nil => intro _; rfl
  | cons t ts ih =>
    intro hmem
    rw [matchTok_miss hd (by simp at hmem; exact hmem.1) ts]
    exact ih (by simp at hmem; exact hmem.2)

/-- Parsing a single `1` literal whose follower is a comma or a closing
paren: the whole expression cascade consumes exactly the number token
and yields the literal node. -/
theorem expression_num_lit (m : Nat) (st : PState) (next : Token) (rest : List Token)
    (hd : st.tokens.drop st.current = numTok 1 :: next :: rest)
    (hn : next.tokenType = .comma ∨ next.tokenType = .rightParen ∨
          next.tokenType = .semicolon) :
    expressionP (m + 9) st =
      ({st with current := st.current + 1}, .ok (.literal (.num 1))) := by
  have hd2 : ({st with current := st.current + 1} : PState).tokens.drop
      ({st with current := st.current + 1} : PState).current = next :: rest :=
    drop_succ_of_drop hd
  have hnotin : ∀ ts : List TokenType, TokenType.comma ∉ ts →
      TokenType.rightParen ∉ ts → TokenType.semicolon ∉ ts →
      matchTok ({st with current := st.current + 1}) ts =
        (({st with current := st.current + 1} : PState), false) := by
    intro ts h1 h2 h3
    apply matchTok_none hd2
    rcases hn with h | h | h <;> rw [h] <;> assumption
  have hprim : primaryP (m+1) st =
      (({st with current := st.current + 1} : PState), .ok (.literal (.num 1))) := by
    simp only [primaryP]
    rw [matchTok_none hd [.identifier] (by decide)]
    dsimp only
    rw [matchTok_none hd [.kwFalse] (by decide)]
    dsimp only
    rw [matchTok_none hd [.kwTrue] (by decide)]
    dsimp only
    rw [matchTok_none hd [.kwNil] (by decide)]
    dsimp only
    rw [matchTok_hit hd (show (numTok 1).tokenType = TokenType.number from rfl)
      (by decide) [.strLit]]
    dsimp only
    have hpr : previous ({st with current := st.current + 1} : PState) = numTok 1 := by
      show st.tokens.getD (st.current + 1 - 1) eofToken = numTok 1
      simp only [Nat.add_sub_cancel]
      exact getD_of_drop hd _
    rw [hpr]
    rfl
  have hcall : callP (m+2) st =
      (({st with current := st.current + 1} : PState), .ok (.literal (.num 1))) := by
    simp only [callP, hprim]
    simp only [callLoop]
    rw [hnotin [.leftParen] (by decide) (by decide) (by decide)]
  have hun : unaryP (m+3) st =
      (({st with current := st.current + 1} : PState), .ok (.literal (.num 1))) := by
    simp only [unaryP]
    rw [matchTok_none hd [.bang, .minus] (by decide)]
    dsimp only
    exact hcall
  have hfac : factor (m+4) st =
      (({st with current := st.current + 1} : PState), .ok (.literal (.num 1))) := by
    simp only [factor, hun]
    simp only [factorLoop]
    rw [hnotin [.slash, .star] (by decide) (by decide) (by decide)]
  have hterm : termP (m+5) st =
      (({st with current := st.current + 1} : PState), .ok (.literal (.num 1))) := by
    simp only [termP, hfac]
    simp only [termLoop]
    rw [hnotin [.minus, .plus] (by decide) (by decide) (by decide)]
  have hcomp : comparison (m+6) st =
      (({st with current := st.current + 1} : PState), .ok (.literal (.num 1))) := by
    simp only [comparison, hterm]
    simp only [compLoop]
    rw [hnotin [.greater, .greaterEqual, .less, .lessEqual] (by decide) (by decide) (by decide)]
  have heq : equality (m+7) st =
      (({st with current := st.current + 1} : PState), .ok (.literal (.num 1))) := by
    simp only [equality, hcomp]
    simp only [eqLoop]
    rw [hnotin [.bangEqual, .equalEqual] (by decide) (by decide) (by decide)]
  have hass : assignment (m+8) st =
      (({st with current := st.current + 1} : PState), .ok (.literal (.num 1))) := by
    simp only [assignment, heq]
    rw [hnotin [.equal] (by decide) (by decide) (by decide)]
  simp only [expressionP]
  exact hass

end Lox

namespace Lox

/-- One unfolding of the argument loop, with the overflow-reporting `if`
abstracted into the state `stE` it produces. -/
theorem argLoop_step (g' : Nat) (st stE : PState) (acc : List Expr)
    (hE : (if 255 ≤ acc.length then
            (reportError st (peek st) "Cannot have more than 255 arguments.").1
           else st) = stE) :
    argLoop (g'+1) st acc =
      (match expressionP g' stE with
       | (st1, .ok e) =>
         match matchTok st1 [.comma] with
         | (st2, true) => argLoop g' st2 (acc ++ [e])
         | (st2, false) => (st2, .ok (acc ++ [e]))
       | (st1, .err m) => (st1, .err m)
       | (st1, .timeout) => (st1, .timeout)) := by
  rw [← hE]
  rfl

theorem argLoop_spec :
    ∀ (j g : Nat) (st : PState) (acc : List Expr) (rest : List Token),
      j + 10 ≤ g →
      st.tokens.drop st.current = argSeq (j+1) ++ tok .rightParen ")" :: rest →
      argLoop g st acc =
        ({st with current := st.current + (2*j + 1),
                  errs := st.errs ++ overflowErrs argOverflowMsg acc.length (j+1)},
         .ok (acc ++ List.replicate (j+1) (Expr.literal (.num 1)))) := by
  intro j
  induction j with
  | zero =>
    intro g st acc rest hg hd
    obtain ⟨g', rfl⟩ : ∃ g', g = g' + 1 := ⟨g - 1, by omega⟩
    obtain ⟨m, rfl⟩ : ∃ m, g' = m + 9 := ⟨g' - 9, by omega⟩
    have hd1 : st.tokens.drop st.current =
        numTok 1 :: tok .rightParen ")" :: rest := by
      simpa [argSeq] using hd
    by_cases hacc : 255 ≤ acc.length
    · set stE : PState := {st with errs := st.errs ++ [argOverflowMsg]} with hEdef
      have hE : (if 255 ≤ acc.length then
            (reportError st (peek st) "Cannot have more than 255 arguments.").1
           else st) = stE := by
        rw [if_pos hacc, peek_of_drop hd1]
        rfl
      rw [argLoop_step (m+9) st stE acc hE]
      have hdE : stE.tokens.drop stE.current =
          numTok 1 :: tok .rightParen ")" :: rest := hd1
      rw [expression_num_lit m stE (tok .rightParen ")") rest hdE (Or.inr (Or.inl rfl))]
      dsimp only
      have hdE2 : ({stE with current := stE.current + 1} : PState).tokens.drop
          ({stE with current := stE.current + 1} : PState).current =
          tok .rightParen ")" :: rest := drop_succ_of_drop hdE
      rw [matchTok_miss hdE2 (by decide) []]
      simp only [matchTok]
      simp [hEdef, overflowErrs, hacc, Prod.ext_iff, PState.mk.injEq]
    · have hE : (if 255 ≤ acc.length then
            (reportError st (peek st) "Cannot have more than 255 arguments.").1
           else st) = st := if_neg hacc
      rw [argLoop_step (m+9) st st acc hE]
      rw [expression_num_lit m st (tok .rightParen ")") rest hd1 (Or.inr (Or.inl rfl))]
      dsimp only
      have hd2 : ({st with current := st.current + 1} : PState).tokens.drop
          ({st with current := st.current + 1} : PState).current =
          tok .rightParen ")" :: rest := drop_succ_of_drop hd1
      rw [matchTok_miss hd2 (by decide) []]
      simp only [matchTok]
      simp [overflowErrs, hacc, Prod.ext_iff, PState.mk.injEq]
  | succ j ih =>
    intro g st acc rest hg hd
    obtain ⟨g', rfl⟩ : ∃ g', g = g' + 1 := ⟨g - 1, by omega⟩
    obtain ⟨m, hm⟩ : ∃ m, g' = m + 9 := ⟨g' - 9, by omega⟩
    have hd1 : st.tokens.drop st.current =
        numTok 1 :: tok .comma "," ::
          (argSeq (j+1) ++ tok .rightParen ")" :: rest) := by
      simpa [argSeq] using hd
    by_cases hacc : 255 ≤ acc.length
    · set stE : PState := {st with errs := st.errs ++ [argOverflowMsg]} with hEdef
      have hE : (if 255 ≤ acc.length then
            (reportError st (peek st) "Cannot have more than 255 arguments.").1
           else st) = stE := by
        rw [if_pos hacc, peek_of_drop hd1]
        rfl
      rw [argLoop_step g' st stE acc hE]
      have hdE : stE.tokens.drop stE.current =
          numTok 1 :: tok .comma "," ::
            (argSeq (j+1) ++ tok .rightParen ")" :: rest) := hd1
      rw [hm, expression_num_lit m stE (tok .comma ",") _ hdE (Or.inl rfl)]
      dsimp only
      have hdE2 : ({stE with current := stE.current + 1} : PState).tokens.drop
          ({stE with current := stE.current + 1} : PState).current =
          tok .comma "," :: (argSeq (j+1) ++ tok .rightParen ")" :: rest) :=
        drop_succ_of_drop hdE
      rw [matchTok_hit hdE2 (show (tok .comma ",").tokenType = TokenType.comma from rfl)
        (by decide) []]
      dsimp only
      have hdE3 : ({stE with current := stE.current + 1 + 1} : PState).tokens.drop
          ({stE with current := stE.current + 1 + 1} : PState).current =
          argSeq (j+1) ++ tok .rightParen ")" :: rest := drop_succ_of_drop hdE2
      rw [ih (m+9) _ (acc ++ [Expr.literal (.num 1)]) rest (by omega) hdE3]
      simp [hEdef, overflowErrs, hacc, List.replicate_succ, List.append_assoc,
        Prod.ext_iff, PState.mk.injEq]
      omega
    · have hE : (if 255 ≤ acc.length then
            (reportError st (peek st) "Cannot have more than 255 arguments.").1
           else st) = st := if_neg hacc
      rw [argLoop_step g' st st acc hE]
      rw [hm, expression_num_lit m st (tok .comma ",") _ hd1 (Or.inl rfl)]
      dsimp only
      have hd2 : ({st with current := st.current + 1} : PState).tokens.drop
          ({st with current := st.current + 1} : PState).current =
          tok .comma "," :: (argSeq (j+1) ++ tok .rightParen ")" :: rest) :=
        drop_succ_of_drop hd1
      rw [matchTok_hit hd2 (show (tok .comma ",").tokenType = TokenType.comma from rfl)
        (by decide) []]
      dsimp only
      have hd3 : ({st with current := st.current + 1 + 1} : PState).tokens.drop
          ({st with current := st.current + 1 + 1} : PState).current =
          argSeq (j+1) ++ tok .rightParen ")" :: rest := drop_succ_of_drop hd2
      rw [ih (m+9) _ (acc ++ [Expr.literal (.num 1)]) rest (by omega) hd3]
      simp [overflowErrs, hacc, List.replicate_succ, List.append_assoc,
        Prod.ext_iff, PState.mk.injEq]
      omega

end Lox

namespace Lox

theorem paramSeq_length : ∀ j, (paramSeq (j+1)).length = 2*j + 1 := by
  intro j
  induction j with
  | zero => rfl
  | succ j ih =>
    show (paramSeq (j+2)).length = 2*(j+1) + 1
    simp only [paramSeq, List.length_cons, ih]
    omega

theorem argSeq_length : ∀ j, (argSeq (j+1)).length = 2*j + 1 := by
  intro j
  induction j with
  | zero => rfl
  | succ j ih =>
    show (argSeq (j+2)).length = 2*(j+1) + 1
    simp only [argSeq, List.length_cons, ih]
    omega

theorem paramSeq_cons : ∀ j, ∃ tl, paramSeq (j+1) = identTok "a" :: tl := by
  intro j
  cases j with
  | zero => exact ⟨[], rfl⟩
  | succ k => exact ⟨_, rfl⟩

theorem argSeq_cons : ∀ j, ∃ tl, argSeq (j+1) = numTok 1 :: tl := by
  intro j
  cases j with
  | zero => exact ⟨[], rfl⟩
  | succ k => exact ⟨_, rfl⟩

/-- Parsing `print 1;`: consumes the two remaining tokens after the
already-matched `print` keyword. -/
theorem printStatement_lit (f : Nat) (st : PState) (rest : List Token)
    (hd : st.tokens.drop st.current = numTok 1 :: tok .semicolon ";" :: rest) :
    printStatement (f + 10) st =
      ({st with current := st.current + 2}, .ok (.print (.literal (.num 1)))) := by
  show printStatement ((f + 9) + 1) st = _
  simp only [printStatement]
  rw [show f + 9 = f + 9 from rfl,
    expression_num_lit f st (tok .semicolon ";") rest hd (Or.inr (Or.inr rfl))]
  dsimp only
  have hd2 : ({st with current := st.current + 1} : PState).tokens.drop
      ({st with current := st.current + 1} : PState).current =
      tok .semicolon ";" :: rest := drop_succ_of_drop hd
  rw [consume_ok hd2 (show (tok .semicolon ";").tokenType = TokenType.semicolon from rfl)
    (by decide) "Expect ';' after value."]

/-- Parsing the trailing `print 1;` program suffix up to EOF. -/
theorem parseStmts_print_eof (f : Nat) (st : PState)
    (hd : st.tokens.drop st.current =
      [tok .kwPrint "print", numTok 1, tok .semicolon ";", tok .eof ""]) :
    parseStatements (f + 14) st =
      ({st with current := st.current + 3}, .ok [Stmt.print (.literal (.num 1))]) := by
  have hae : isAtEnd st = false := by
    simp [isAtEnd, peek_of_drop hd, tok]
  show parseStatements ((f + 13) + 1) st = _
  simp only [parseStatements, hae, Bool.false_eq_true, if_false]
  show (match declaration (f + 13) st with
        | (st1, POut.ok s) =>
          match parseStatements (f + 13) st1 with
          | (st2, POut.ok rest) => (st2, POut.ok (s :: rest))
          | (st2, POut.err m) => (st2, POut.err m)
          | (st2, POut.timeout) => (st2, POut.timeout)
        | (st1, POut.err m) => (st1, POut.err m)
        | (st1, POut.timeout) => (st1, POut.timeout)) = _
  have hdecl : declaration (f + 13) st =
      ({st with current := st.current + 3}, .ok (.print (.literal (.num 1)))) := by
    show declaration ((f + 12) + 1) st = _
    simp only [declaration]
    rw [matchTok_none hd [.kwFun] (by decide)]
    dsimp only
    rw [matchTok_none hd [.kwVar] (by decide)]
    dsimp only
    show statementP (f + 12) st = _
    show statementP ((f + 11) + 1) st = _
    simp only [statementP]
    rw [matchTok_hit hd (show (tok .kwPrint "print").tokenType = TokenType.kwPrint from rfl)
      (by decide) []]
    dsimp only
    have hd1 : ({st with current := st.current + 1} : PState).tokens.drop
        ({st with current := st.current + 1} : PState).current =
        numTok 1 :: tok .semicolon ";" :: [tok .eof ""] := drop_succ_of_drop hd
    rw [show f + 11 = (f + 1) + 10 from rfl,
      printStatement_lit (f + 1) _ [tok .eof ""] hd1]
  rw [hdecl]
  dsimp only
  have hd3 : ({st with current := st.current + 3} : PState).tokens.drop
      ({st with current := st.current + 3} : PState).current = [tok .eof ""] := by
    have a1 := drop_succ_of_drop hd
    have a2 := drop_succ_of_drop a1
    have a3 := drop_succ_of_drop a2
    show st.tokens.drop (st.current + 3) = _
    have e : st.current + 3 = st.current + 1 + 1 + 1 := by omega
    rw [e]
    exact a3
  have hae3 : isAtEnd ({st with current := st.current + 3} : PState) = true := by
    simp [isAtEnd, peek_of_drop hd3, tok]
  show (match parseStatements (f + 13) ({st with current := st.current + 3} : PState) with
        | (st2, POut.ok rest) => (st2, POut.ok (Stmt.print (.literal (.num 1)) :: rest))
        | (st2, POut.err m) => (st2, POut.err m)
        | (st2, POut.timeout) => (st2, POut.timeout)) = _
  have hps : parseStatements (f + 13) ({st with current := st.current + 3} : PState) =
      (({st with current := st.current + 3} : PState), .ok []) := by
    show parseStatements ((f + 12) + 1) _ = _
    simp only [parseStatements, hae3, if_true]
  rw [hps]

end Lox

namespace Lox

/-- Parsing a `function` declaration header-to-body whose parameter list
has `j+1` entries: every parameter lands in the AST node and each
iteration at or past 255 adds one sink line. -/
theorem functionP_manyParams (j m : Nat) (st : PState) (rest : List Token)
    (hd : st.tokens.drop st.current =
      identTok "f" :: tok .leftParen "(" ::
        (paramSeq (j+1) ++ tok .rightParen ")" :: tok .leftBrace "\x7b" ::
          tok .rightBrace "\x7d" :: rest)) :
    functionP (m + j + 5) st "function" =
      ({st with current := st.current + (2*j + 6),
                errs := st.errs ++ overflowErrs paramOverflowMsg 0 (j+1)},
       .ok (.funS (.mk (identTok "f") (List.replicate (j+1) (identTok "a")) []))) := by
  show functionP ((m + j + 4) + 1) st "function" = _
  simp only [functionP]
  rw [consume_ok hd (show (identTok "f").tokenType = TokenType.identifier from rfl)
    (by decide) ("Expect " ++ "function" ++ " name.")]
  dsimp only
  have hd2 : ({st with current := st.current + 1} : PState).tokens.drop
      ({st with current := st.current + 1} : PState).current =
      tok .leftParen "(" ::
        (paramSeq (j+1) ++ tok .rightParen ")" :: tok .leftBrace "\x7b" ::
          tok .rightBrace "\x7d" :: rest) := drop_succ_of_drop hd
  rw [consume_ok hd2 (show (tok .leftParen "(").tokenType = TokenType.leftParen from rfl)
    (by decide) ("Expect '(' after " ++ "function" ++ " name.")]
  dsimp only
  have hd3 : ({st with current := st.current + 1 + 1} : PState).tokens.drop
      ({st with current := st.current + 1 + 1} : PState).current =
      paramSeq (j+1) ++ tok .rightParen ")" :: tok .leftBrace "\x7b" ::
        tok .rightBrace "\x7d" :: rest := drop_succ_of_drop hd2
  obtain ⟨tl, htl⟩ := paramSeq_cons j
  have hd3' : ({st with current := st.current + 1 + 1} : PState).tokens.drop
      ({st with current := st.current + 1 + 1} : PState).current =
      identTok "a" :: (tl ++ tok .rightParen ")" :: tok .leftBrace "\x7b" ::
        tok .rightBrace "\x7d" :: rest) := by
    rw [hd3, htl]
    simp
  have hck : checkTok ({st with current := st.current + 1 + 1} : PState)
      .rightParen = false := by
    rw [checkTok_of_drop hd3']
    decide
  rw [hck]
  simp only [Bool.not_false, if_true]
  rw [paramLoop_spec j (m + j + 4) _ [] _ (by omega) hd3]
  dsimp only
  simp only [List.length_nil, List.nil_append]
  have hd4 : ({st with current := st.current + 1 + 1 + (2*j + 1),
                       errs := st.errs ++ overflowErrs paramOverflowMsg 0 (j+1)} :
      PState).tokens.drop
      ({st with current := st.current + 1 + 1 + (2*j + 1),
                errs := st.errs ++ overflowErrs paramOverflowMsg 0 (j+1)} :
      PState).current =
      tok .rightParen ")" :: tok .leftBrace "\x7b" :: tok .rightBrace "\x7d" :: rest := by
    show st.tokens.drop (st.current + 1 + 1 + (2*j + 1)) = _
    have := drop_append_of_drop hd3
    rw [paramSeq_length] at this
    exact this
  rw [consume_ok hd4 (show (tok .rightParen ")").tokenType = TokenType.rightParen from rfl)
    (by decide) "Expect ')' after parameters."]
  dsimp only
  have hd5 : ({st with current := st.current + 1 + 1 + (2*j + 1) + 1,
                       errs := st.errs ++ overflowErrs paramOverflowMsg 0 (j+1)} :
      PState).tokens.drop
      ({st with current := st.current + 1 + 1 + (2*j + 1) + 1,
                errs := st.errs ++ overflowErrs paramOverflowMsg 0 (j+1)} :
      PState).current =
      tok .leftBrace "\x7b" :: tok .rightBrace "\x7d" :: rest := drop_succ_of_drop hd4
  rw [consume_ok hd5 (show (tok .leftBrace "\x7b").tokenType = TokenType.leftBrace from rfl)
    (by decide) ("Expect '\x7b' before " ++ "function" ++ " body.")]
  dsimp only
  have hd6 : ({st with current := st.current + 1 + 1 + (2*j + 1) + 1 + 1,
                       errs := st.errs ++ overflowErrs paramOverflowMsg 0 (j+1)} :
      PState).tokens.drop
      ({st with current := st.current + 1 + 1 + (2*j + 1) + 1 + 1,
                errs := st.errs ++ overflowErrs paramOverflowMsg 0 (j+1)} :
      PState).current =
      tok .rightBrace "\x7d" :: rest := drop_succ_of_drop hd5
  have hbl : blockList (m + j + 4)
      ({st with current := st.current + 1 + 1 + (2*j + 1) + 1 + 1,
                errs := st.errs ++ overflowErrs paramOverflowMsg 0 (j+1)} : PState) =
      ({st with current := st.current + 1 + 1 + (2*j + 1) + 1 + 1 + 1,
                errs := st.errs ++ overflowErrs paramOverflowMsg 0 (j+1)}, .ok []) := by
    show blockList ((m + j + 3) + 1) _ = _
    simp only [blockList]
    have hckb : checkTok
        ({st with current := st.current + 1 + 1 + (2*j + 1) + 1 + 1,
                  errs := st.errs ++ overflowErrs paramOverflowMsg 0 (j+1)} : PState)
        .rightBrace = true := by
      rw [checkTok_of_drop hd6]
      decide
    rw [hckb]
    simp only [Bool.not_true, Bool.false_and, Bool.false_eq_true, if_false]
    rw [consume_ok hd6 (show (tok .rightBrace "\x7d").tokenType = TokenType.rightBrace from rfl)
      (by decide) "Expect '\x7d' after block."]
  rw [hbl]
  dsimp only
  simp [Prod.ext_iff, PState.mk.injEq]
  omega

end Lox

namespace Lox

/-- Parsing `f(1, ..., 1)` with `j+1` arguments followed by a semicolon:
every argument lands in the Call node and each iteration at or past 255
adds one sink line. -/
theorem expression_call_many (j m : Nat) (st : PState) (rest : List Token)
    (hd : st.tokens.drop st.current =
      identTok "f" :: tok .leftParen "(" ::
        (argSeq (j+1) ++ tok .rightParen ")" :: tok .semicolon ";" :: rest)) :
    expressionP (m + j + 22) st =
      ({st with current := st.current + (2*j + 4),
                errs := st.errs ++ overflowErrs argOverflowMsg 0 (j+1),
                nextId := st.nextId + 1},
       .ok (.call (.variableE (identTok "f") st.nextId) (tok .rightParen ")")
         (List.replicate (j+1) (.literal (.num 1))))) := by
  have hd2 : ({st with current := st.current + 1, nextId := st.nextId + 1} :
      PState).tokens.drop
      ({st with current := st.current + 1, nextId := st.nextId + 1} : PState).current =
      tok .leftParen "(" ::
        (argSeq (j+1) ++ tok .rightParen ")" :: tok .semicolon ";" :: rest) :=
    drop_succ_of_drop hd
  have hd3 : ({st with current := st.current + 1 + 1, nextId := st.nextId + 1} :
      PState).tokens.drop
      ({st with current := st.current + 1 + 1, nextId := st.nextId + 1} : PState).current =
      argSeq (j+1) ++ tok .rightParen ")" :: tok .semicolon ";" :: rest :=
    drop_succ_of_drop hd2
  have hd4 : ({st with current := st.current + 1 + 1 + (2*j + 1),
                       errs := st.errs ++ overflowErrs argOverflowMsg 0 (j+1),
                       nextId := st.nextId + 1} : PState).tokens.drop
      ({st with current := st.current + 1 + 1 + (2*j + 1),
                errs := st.errs ++ overflowErrs argOverflowMsg 0 (j+1),
                nextId := st.nextId + 1} : PState).current =
      tok .rightParen ")" :: tok .semicolon ";" :: rest := by
    show st.tokens.drop (st.current + 1 + 1 + (2*j + 1)) = _
    have := drop_append_of_drop hd3
    rw [argSeq_length] at this
    exact this
  have hd5 : ({st with current := st.current + 1 + 1 + (2*j + 1) + 1,
                       errs := st.errs ++ overflowErrs argOverflowMsg 0 (j+1),
                       nextId := st.nextId + 1} : PState).tokens.drop
      ({st with current := st.current + 1 + 1 + (2*j + 1) + 1,
                errs := st.errs ++ overflowErrs argOverflowMsg 0 (j+1),
                nextId := st.nextId + 1} : PState).current =
      tok .semicolon ";" :: rest := drop_succ_of_drop hd4
  have hprim : primaryP (m + j + 14) st =
      (({st with current := st.current + 1, nextId := st.nextId + 1} : PState),
       .ok (.variableE (identTok "f") st.nextId)) := by
    show primaryP ((m + j + 13) + 1) st = _
    simp only [primaryP]
    rw [matchTok_hit hd (show (identTok "f").tokenType = TokenType.identifier from rfl)
      (by decide) []]
    dsimp only [freshId]
    have hpr : previous ({st with current := st.current + 1} : PState) = identTok "f" := by
      show st.tokens.getD (st.current + 1 - 1) eofToken = identTok "f"
      simp only [Nat.add_sub_cancel]
      exact getD_of_drop hd _
    rw [hpr]
  have hfin : finishCall (m + j + 13)
      ({st with current := st.current + 1 + 1, nextId := st.nextId + 1} : PState)
      (.variableE (identTok "f") st.nextId) =
      (({st with current := st.current + 1 + 1 + (2*j + 1) + 1,
                 errs := st.errs ++ overflowErrs argOverflowMsg 0 (j+1),
                 nextId := st.nextId + 1} : PState),
       .ok (.call (.variableE (identTok "f") st.nextId) (tok .rightParen ")")
         (List.replicate (j+1) (.literal (.num 1))))) := by
    show finishCall ((m + j + 12) + 1) _ _ = _
    simp only [finishCall]
    obtain ⟨tl, htl⟩ := argSeq_cons j
    have hd3' : ({st with current := st.current + 1 + 1, nextId := st.nextId + 1} :
        PState).tokens.drop
        ({st with current := st.current + 1 + 1, nextId := st.nextId + 1} : PState).current =
        numTok 1 :: (tl ++ tok .rightParen ")" :: tok .semicolon ";" :: rest) := by
      rw [hd3, htl]
      simp
    have hck : checkTok
        ({st with current := st.current + 1 + 1, nextId := st.nextId + 1} : PState)
        .rightParen = false := by
      rw [checkTok_of_drop hd3']
      decide
    rw [hck]
    simp only [Bool.false_eq_true, if_false]
    rw [argLoop_spec j (m + j + 12) _ [] _ (by omega) hd3]
    dsimp only
    simp only [List.length_nil, List.nil_append]
    rw [consume_ok hd4 (show (tok .rightParen ")").tokenType = TokenType.rightParen from rfl)
      (by decide) "Expect ')' after arguments."]
  have hloop2 : callLoop (m + j + 13)
      ({st with current := st.current + 1 + 1 + (2*j + 1) + 1,
                errs := st.errs ++ overflowErrs argOverflowMsg 0 (j+1),
                nextId := st.nextId + 1} : PState)
      (.call (.variableE (identTok "f") st.nextId) (tok .rightParen ")")
        (List.replicate (j+1) (.literal (.num 1)))) =
      (({st with current := st.current + 1 + 1 + (2*j + 1) + 1,
                 errs := st.errs ++ overflowErrs argOverflowMsg 0 (j+1),
                 nextId := st.nextId + 1} : PState),
       .ok (.call (.variableE (identTok "f") st.nextId) (tok .rightParen ")")
         (List.replicate (j+1) (.literal (.num 1))))) := by
    show callLoop ((m + j + 12) + 1) _ _ = _
    simp only [callLoop]
    rw [matchTok_none hd5 [.leftParen] (by decide)]
  have hcallLoop : callLoop (m + j + 14)
      ({st with current := st.current + 1, nextId := st.nextId + 1} : PState)
      (.variableE (identTok "f") st.nextId) =
      (({st with current := st.current + 1 + 1 + (2*j + 1) + 1,
                 errs := st.errs ++ overflowErrs argOverflowMsg 0 (j+1),
                 nextId := st.nextId + 1} : PState),
       .ok (.call (.variableE (identTok "f") st.nextId) (tok .rightParen ")")
         (List.replicate (j+1) (.literal (.num 1))))) := by
    show callLoop ((m + j + 13) + 1) _ _ = _
    simp only [callLoop]
    rw [matchTok_hit hd2 (show (tok .leftParen "(").tokenType = TokenType.leftParen from rfl)
      (by decide) []]
    dsimp only
    rw [hfin]
    dsimp only
    exact hloop2
  have hcallP : callP (m + j + 15) st =
      (({st with current := st.current + 1 + 1 + (2*j + 1) + 1,
                 errs := st.errs ++ overflowErrs argOverflowMsg 0 (j+1),
                 nextId := st.nextId + 1} : PState),
       .ok (.call (.variableE (identTok "f") st.nextId) (tok .rightParen ")")
         (List.replicate (j+1) (.literal (.num 1))))) := by
    show callP ((m + j + 14) + 1) st = _
    simp only [callP]
    rw [hprim]
    dsimp only
    exact hcallLoop
  have hun : unaryP (m + j + 16) st =
      (({st with current := st.current + 1 + 1 + (2*j + 1) + 1,
                 errs := st.errs ++ overflowErrs argOverflowMsg 0 (j+1),
                 nextId := st.nextId + 1} : PState),
       .ok (.call (.variableE (identTok "f") st.nextId) (tok .rightParen ")")
         (List.replicate (j+1) (.literal (.num 1))))) := by
    show unaryP ((m + j + 15) + 1) st = _
    simp only [unaryP]
    rw [matchTok_none hd [.bang, .minus] (by decide)]
    dsimp only
    exact hcallP
  have hfac : factor (m + j + 17) st =
      (({st with current := st.current + 1 + 1 + (2*j + 1) + 1,
                 errs := st.errs ++ overflowErrs argOverflowMsg 0 (j+1),
                 nextId := st.nextId + 1} : PState),
       .ok (.call (.variableE (identTok "f") st.nextId) (tok .rightParen ")")
         (List.replicate (j+1) (.literal (.num 1))))) := by
    show factor ((m + j + 16) + 1) st = _
    simp only [factor]
    rw [hun]
    dsimp only
    show factorLoop (m + j + 16) _ _ = _
    show factorLoop ((m + j + 15) + 1) _ _ = _
    simp only [factorLoop]
    rw [matchTok_none hd5 [.slash, .star] (by decide)]
  have hterm : termP (m + j + 18) st =
      (({st with current := st.current + 1 + 1 + (2*j + 1) + 1,
                 errs := st.errs ++ overflowErrs argOverflowMsg 0 (j+1),
                 nextId := st.nextId + 1} : PState),
       .ok (.call (.variableE (identTok "f") st.nextId) (tok .rightParen ")")
         (List.replicate (j+1) (.literal (.num 1))))) := by
    show termP ((m + j + 17) + 1) st = _
    simp only [termP]
    rw [hfac]
    dsimp only
    show termLoop ((m + j + 16) + 1) _ _ = _
    simp only [termLoop]
    rw [matchTok_none hd5 [.minus, .plus] (by decide)]
  have hcomp : comparison (m + j + 19) st =
      (({st with current := st.current + 1 + 1 + (2*j + 1) + 1,
                 errs := st.errs ++ overflowErrs argOverflowMsg 0 (j+1),
                 nextId := st.nextId + 1} : PState),
       .ok (.call (.variableE (identTok "f") st.nextId) (tok .rightParen ")")
         (List.replicate (j+1) (.literal (.num 1))))) := by
    show comparison ((m + j + 18) + 1) st = _
    simp only [comparison]
    rw [hterm]
    dsimp only
    show compLoop ((m + j + 17) + 1) _ _ = _
    simp only [compLoop]
    rw [matchTok_none hd5 [.greater, .greaterEqual, .less, .lessEqual] (by decide)]
  have heq : equality (m + j + 20) st =
      (({st with current := st.current + 1 + 1 + (2*j + 1) + 1,
                 errs := st.errs ++ overflowErrs argOverflowMsg 0 (j+1),
                 nextId := st.nextId + 1} : PState),
       .ok (.call (.variableE (identTok "f") st.nextId) (tok .rightParen ")")
         (List.replicate (j+1) (.literal (.num 1))))) := by
    show equality ((m + j + 19) + 1) st = _
    simp only [equality]
    rw [hcomp]
    dsimp only
    show eqLoop ((m + j + 18) + 1) _ _ = _
    simp only [eqLoop]
    rw [matchTok_none hd5 [.bangEqual, .equalEqual] (by decide)]
  have hass : assignment (m + j + 21) st =
      (({st with current := st.current + 1 + 1 + (2*j + 1) + 1,
                 errs := st.errs ++ overflowErrs argOverflowMsg 0 (j+1),
                 nextId := st.nextId + 1} : PState),
       .ok (.call (.variableE (identTok "f") st.nextId) (tok .rightParen ")")
         (List.replicate (j+1) (.literal (.num 1))))) := by
    show assignment ((m + j + 20) + 1) st = _
    simp only [assignment]
    rw [heq]
    dsimp only
    rw [matchTok_none hd5 [.equal] (by decide)]
  show expressionP ((m + j + 21) + 1) st = _
  simp only [expressionP]
  rw [hass]
  simp [Prod.ext_iff, PState.mk.injEq]
  omega

end Lox

namespace Lox

theorem overflowErrs_eq_replicate (msg : String) :
    ∀ (k a : Nat), overflowErrs msg a k = List.replicate (a + k - max a 255) msg := by
  intro k
  induction k with
  | zero => intro a; simp [overflowErrs]
  | succ k ih =>
    intro a
    by_cases h : 255 ≤ a
    · rw [overflowErrs, ih (a+1)]
      have e1 : a + 1 + k - max (a+1) 255 = k := by omega
      have e2 : a + (k+1) - max a 255 = k + 1 := by omega
      simp [h, e1, e2, List.replicate_succ]
    · rw [overflowErrs, ih (a+1)]
      have e : a + 1 + k - max (a+1) 255 = a + (k+1) - max a 255 := by omega
      simp [h, e]

/-- Parsing the whole `fun f(a, ..., a) \x7b\x7d print 1;` program with
`j+1` parameters: the declaration keeps all parameters, the overflow
reports land in the sink, and the trailing print statement still parses. -/
theorem parse_fun_decl_many (j m : Nat) (st : PState)
    (hd : st.tokens.drop st.current =
      tok .kwFun "fun" :: identTok "f" :: tok .leftParen "(" ::
        (paramSeq (j+1) ++ tok .rightParen ")" :: tok .leftBrace "\x7b" ::
          tok .rightBrace "\x7d" :: tok .kwPrint "print" :: numTok 1 ::
          tok .semicolon ";" :: [tok .eof ""])) :
    parseStatements (m + j + 31) st =
      ({st with current := st.current + (2*j + 10),
                errs := st.errs ++ overflowErrs paramOverflowMsg 0 (j+1)},
       .ok [.funS (.mk (identTok "f") (List.replicate (j+1) (identTok "a")) []),
            .print (.literal (.num 1))]) := by
  have hae : isAtEnd st = false := by
    simp [isAtEnd, peek_of_drop hd, tok]
  show parseStatements ((m + j + 30) + 1) st = _
  rw [parseStatements]
  simp only [hae, Bool.false_eq_true, if_false]
  have hd1 : ({st with current := st.current + 1} : PState).tokens.drop
      ({st with current := st.current + 1} : PState).current =
      identTok "f" :: tok .leftParen "(" ::
        (paramSeq (j+1) ++ tok .rightParen ")" :: tok .leftBrace "\x7b" ::
          tok .rightBrace "\x7d" :: tok .kwPrint "print" :: numTok 1 ::
          tok .semicolon ";" :: [tok .eof ""]) := drop_succ_of_drop hd
  have hdecl : declaration (m + j + 30) st =
      ({st with current := st.current + (2*j + 7),
                errs := st.errs ++ overflowErrs paramOverflowMsg 0 (j+1)},
       .ok (.funS (.mk (identTok "f") (List.replicate (j+1) (identTok "a")) []))) := by
    show declaration ((m + j + 29) + 1) st = _
    simp only [declaration]
    rw [matchTok_hit hd (show (tok .kwFun "fun").tokenType = TokenType.kwFun from rfl)
      (by decide) []]
    dsimp only
    rw [show m + j + 29 = (m + 24) + j + 5 from by omega]
    rw [functionP_manyParams j (m + 24) _ _ hd1]
    simp [Prod.ext_iff, PState.mk.injEq]
    omega
  rw [hdecl]
  dsimp only
  have hdP : ({st with current := st.current + (2*j + 7),
                       errs := st.errs ++ overflowErrs paramOverflowMsg 0 (j+1)} :
      PState).tokens.drop
      ({st with current := st.current + (2*j + 7),
                errs := st.errs ++ overflowErrs paramOverflowMsg 0 (j+1)} :
      PState).current =
      [tok .kwPrint "print", numTok 1, tok .semicolon ";", tok .eof ""] := by
    show st.tokens.drop (st.current + (2*j + 7)) = _
    have hd2 := drop_succ_of_drop hd1
    have hd3 := drop_succ_of_drop hd2
    have hd4 := drop_append_of_drop hd3
    rw [paramSeq_length] at hd4
    have hd5 := drop_succ_of_drop hd4
    have hd6 := drop_succ_of_drop hd5
    have hd7 := drop_succ_of_drop hd6
    have e : st.current + (2*j + 7) = st.current + 1 + 1 + 1 + (2*j + 1) + 1 + 1 + 1 := by
      omega
    rw [e]
    exact hd7
  rw [show m + j + 30 = (m + j + 16) + 14 from by omega]
  rw [parseStmts_print_eof (m + j + 16) _ hdP]
  dsimp only
  simp [Prod.ext_iff, PState.mk.injEq]
  omega

end Lox

namespace Lox

/-- Parsing the whole `f(1, ..., 1); print 1;` program with `j+1`
arguments: the Call node keeps all arguments, the overflow reports land
in the sink, and the trailing print statement still parses. -/
theorem parse_call_expr_many (j m : Nat) (st : PState)
    (hd : st.tokens.drop st.current =
      identTok "f" :: tok .leftParen "(" ::
        (argSeq (j+1) ++ tok .rightParen ")" :: tok .semicolon ";" ::
          tok .kwPrint "print" :: numTok 1 :: tok .semicolon ";" :: [tok .eof ""])) :
    parseStatements (m + j + 31) st =
      ({st with current := st.current + (2*j + 8),
                errs := st.errs ++ overflowErrs argOverflowMsg 0 (j+1),
                nextId := st.nextId + 1},
       .ok [.expression (.call (.variableE (identTok "f") st.nextId) (tok .rightParen ")")
              (List.replicate (j+1) (.literal (.num 1)))),
            .print (.literal (.num 1))]) := by
  have hae : isAtEnd st = false := by
    simp [isAtEnd, peek_of_drop hd, identTok, tok]
  show parseStatements ((m + j + 30) + 1) st = _
  rw [parseStatements]
  simp only [hae, Bool.false_eq_true, if_false]
  have hstmt : expressionStatement (m + j + 28) st =
      ({st with current := st.current + (2*j + 5),
                errs := st.errs ++ overflowErrs argOverflowMsg 0 (j+1),
                nextId := st.nextId + 1},
       .ok (.expression (.call (.variableE (identTok "f") st.nextId) (tok .rightParen ")")
              (List.replicate (j+1) (.literal (.num 1)))))) := by
    show expressionStatement ((m + j + 27) + 1) st = _
    simp only [expressionStatement]
    rw [show m + j + 27 = (m + 5) + j + 22 from by omega]
    rw [expression_call_many j (m + 5) st _ hd]
    dsimp only
    have hdS : ({st with current := st.current + (2*j + 4),
                         errs := st.errs ++ overflowErrs argOverflowMsg 0 (j+1),
                         nextId := st.nextId + 1} : PState).tokens.drop
        ({st with current := st.current + (2*j + 4),
                  errs := st.errs ++ overflowErrs argOverflowMsg 0 (j+1),
                  nextId := st.nextId + 1} : PState).current =
        tok .semicolon ";" ::
          (tok .kwPrint "print" :: numTok 1 :: tok .semicolon ";" :: [tok .eof ""]) := by
      show st.tokens.drop (st.current + (2*j + 4)) = _
      have hd2 := drop_succ_of_drop hd
      have hd3 := drop_succ_of_drop hd2
      have hd4 := drop_append_of_drop hd3
      rw [argSeq_length] at hd4
      have hd5 := drop_succ_of_drop hd4
      have e : st.current + (2*j + 4) = st.current + 1 + 1 + (2*j + 1) + 1 := by omega
      rw [e]
      exact hd5
    rw [consume_ok hdS (show (tok .semicolon ";").tokenType = TokenType.semicolon from rfl)
      (by decide) "Expect ';' after expression."]
    simp [Prod.ext_iff, PState.mk.injEq]
    omega
  have hdecl : declaration (m + j + 30) st =
      ({st with current := st.current + (2*j + 5),
                errs := st.errs ++ overflowErrs argOverflowMsg 0 (j+1),
                nextId := st.nextId + 1},
       .ok (.expression (.call (.variableE (identTok "f") st.nextId) (tok .rightParen ")")
              (List.replicate (j+1) (.literal (.num 1)))))) := by
    show declaration ((m + j + 29) + 1) st = _
    simp only [declaration]
    rw [matchTok_none hd [.kwFun] (by decide)]
    dsimp only
    rw [matchTok_none hd [.kwVar] (by decide)]
    dsimp only
    show statementP ((m + j + 28) + 1) st = _
    simp only [statementP]
    rw [matchTok_none hd [.kwPrint] (by decide)]
    dsimp only
    rw [matchTok_none hd [.kwReturn] (by decide)]
    dsimp only
    rw [matchTok_none hd [.leftBrace] (by decide)]
    dsimp only
    rw [matchTok_none hd [.kwIf] (by decide)]
    dsimp only
    rw [matchTok_none hd [.kwWhile] (by decide)]
    dsimp only
    rw [matchTok_none hd [.kwFor] (by decide)]
    dsimp only
    rw [matchTok_none hd [.kwBreak] (by decide)]
    dsimp only
    exact hstmt
  rw [hdecl]
  dsimp only
  have hdP : ({st with current := st.current + (2*j + 5),
                       errs := st.errs ++ overflowErrs argOverflowMsg 0 (j+1),
                       nextId := st.nextId + 1} : PState).tokens.drop
      ({st with current := st.current + (2*j + 5),
                errs := st.errs ++ overflowErrs argOverflowMsg 0 (j+1),
                nextId := st.nextId + 1} : PState).current =
      [tok .kwPrint "print", numTok 1, tok .semicolon ";", tok .eof ""] := by
    show st.tokens.drop (st.current + (2*j + 5)) = _
    have hd2 := drop_succ_of_drop hd
    have hd3 := drop_succ_of_drop hd2
    have hd4 := drop_append_of_drop hd3
    rw [argSeq_length] at hd4
    have hd5 := drop_succ_of_drop hd4
    have hd6 := drop_succ_of_drop hd5
    have e : st.current + (2*j + 5) = st.current + 1 + 1 + (2*j + 1) + 1 + 1 := by omega
    rw [e]
    exact hd6
  rw [show m + j + 30 = (m + j + 16) + 14 from by omega]
  rw [parseStmts_print_eof (m + j + 16) _ hdP]
  dsimp only
  simp [Prod.ext_iff, PState.mk.injEq]
  omega

end Lox

namespace Lox

set_option maxRecDepth 8000

/-- Claim C8: for every function declaration or call expression with more
than 255 parameters or arguments, the parser reports an error to the
error sink (one sink line per item past 255, so at least one) but parsing
continues: the declaration keeps all `n` parameters, the call keeps all
`n` arguments, and the subsequent `print 1;` statement is still parsed. -/
theorem c8_param_arg_limit_reports_and_continues (n : Nat) (h : 255 < n) :
    parseStatements (n + 30) (initParser (funToks n)) =
      ({tokens := funToks n, current := 2*n + 8,
        errs := List.replicate (n - 255) paramOverflowMsg, nextId := 0},
       POut.ok [Stmt.funS (FunDecl.mk (identTok "f") (List.replicate n (identTok "a")) []),
                Stmt.print (Expr.literal (LitVal.num 1))]) ∧
    parseStatements (n + 30) (initParser (callToks n)) =
      ({tokens := callToks n, current := 2*n + 6,
        errs := List.replicate (n - 255) argOverflowMsg, nextId := 1},
       POut.ok [Stmt.expression
                  (Expr.call (Expr.variableE (identTok "f") 0) (tok .rightParen ")")
                    (List.replicate n (Expr.literal (LitVal.num 1)))),
                Stmt.print (Expr.literal (LitVal.num 1))]) ∧
    0 < n - 255 := by
  obtain ⟨j, rfl⟩ : ∃ j, n = j + 1 := ⟨n - 1, by omega⟩
  have hrepP : overflowErrs paramOverflowMsg 0 (j+1) =
      List.replicate (j + 1 - 255) paramOverflowMsg := by
    rw [overflowErrs_eq_replicate paramOverflowMsg (j+1) 0]
    congr 1
    omega
  have hrepA : overflowErrs argOverflowMsg 0 (j+1) =
      List.replicate (j + 1 - 255) argOverflowMsg := by
    rw [overflowErrs_eq_replicate argOverflowMsg (j+1) 0]
    congr 1
    omega
  refine ⟨?_, ?_, by omega⟩
  · have hd : (initParser (funToks (j+1))).tokens.drop
        (initParser (funToks (j+1))).current =
        tok .kwFun "fun" :: identTok "f" :: tok .leftParen "(" ::
          (paramSeq (j+1) ++ tok .rightParen ")" :: tok .leftBrace "\x7b" ::
            tok .rightBrace "\x7d" :: tok .kwPrint "print" :: numTok 1 ::
            tok .semicolon ";" :: [tok .eof ""]) := by
      simp [initParser, funToks]
    rw [show j + 1 + 30 = 0 + j + 31 from by omega]
    rw [parse_fun_decl_many j 0 _ hd]
    simp [initParser, hrepP, Prod.ext_iff, PState.mk.injEq]
    omega
  · have hd : (initParser (callToks (j+1))).tokens.drop
        (initParser (callToks (j+1))).current =
        identTok "f" :: tok .leftParen "(" ::
          (argSeq (j+1) ++ tok .rightParen ")" :: tok .semicolon ";" ::
            tok .kwPrint "print" :: numTok 1 :: tok .semicolon ";" :: [tok .eof ""]) := by
      simp [initParser, callToks]
    rw [show j + 1 + 30 = 0 + j + 31 from by omega]
    rw [parse_call_expr_many j 0 _ hd]
    simp [initParser, hrepA, Prod.ext_iff, PState.mk.injEq]
    omega

/-- Witness: at `n = 256` the declaration keeps all 256 parameters, the
call keeps all 256 arguments, one overflow report lands in each sink,
and the trailing print statement parses in both programs. -/
theorem c8_param_arg_limit_reports_and_continues_witness :
    255 < 256 ∧
    (parseStatements (256 + 30) (initParser (funToks 256)) =
      ({tokens := funToks 256, current := 2*256 + 8,
        errs := List.replicate (256 - 255) paramOverflowMsg, nextId := 0},
       POut.ok [Stmt.funS (FunDecl.mk (identTok "f")
                  (List.replicate 256 (identTok "a")) []),
                Stmt.print (Expr.literal (LitVal.num 1))]) ∧
     parseStatements (256 + 30) (initParser (callToks 256)) =
      ({tokens := callToks 256, current := 2*256 + 6,
        errs := List.replicate (256 - 255) argOverflowMsg, nextId := 1},
       POut.ok [Stmt.expression
                  (Expr.call (Expr.variableE (identTok "f") 0) (tok .rightParen ")")
                    (List.replicate 256 (Expr.literal (LitVal.num 1)))),
                Stmt.print (Expr.literal (LitVal.num 1))]) ∧
     0 < 256 - 255) :=
  ⟨by decide, c8_param_arg_limit_reports_and_continues 256 (by decide)⟩

end Lox
